import Mathlib

set_option maxHeartbeats 1000000
set_option maxRecDepth 10000

/- Shallow embedding of the Rust-Chess-GUI tournament arbiter
   (src/src-tauri/src of the repository).  Machine integers (u32, i32, i64,
   u64, usize) are modelled as Nat / Int, f64 arithmetic as real numbers,
   Rust collections (Vec, VecDeque, HashMap keyed by small keys) as Lean
   lists.  Formatted display strings built from floats (the cosmetic
   sprt_status field of TournamentStats) are outside the model. -/

namespace ChessGui

/-! ## sprt.rs -/

inductive GameResult where
  | Win
  | Draw
  | Loss
deriving DecidableEq, Repr

inductive SprtState where
  | Continue
  | Accept
  | Reject
deriving DecidableEq, Repr

/-- Display impl for SprtState (sprt.rs lines 17-25). -/
def SprtState.display : SprtState → String
  | .Continue => "Continue"
  | .Accept => "Accept"
  | .Reject => "Reject"

structure SprtConfig where
  h0_elo : ℝ
  h1_elo : ℝ
  draw_ratio : ℝ
  alpha : ℝ
  beta : ℝ

/-- Default SprtConfig (sprt.rs lines 47-57). -/
noncomputable def SprtConfig.default : SprtConfig :=
  { h0_elo := 0, h1_elo := 5, draw_ratio := 0.5, alpha := 0.05, beta := 0.05 }

structure SprtStatus where
  llr : ℝ
  lower_bound : ℝ
  upper_bound : ℝ
  state : SprtState
  wins : ℕ
  draws : ℕ
  losses : ℕ

structure Sprt where
  config : SprtConfig
  wins : ℕ
  draws : ℕ
  losses : ℕ

def Sprt.new (config : SprtConfig) : Sprt :=
  { config := config, wins := 0, draws := 0, losses := 0 }

/-- Rust f64::clamp(lo, hi): below lo gives lo, above hi gives hi. -/
noncomputable def fclamp (x lo hi : ℝ) : ℝ := min (max x lo) hi

/-- expected_probabilities (sprt.rs lines 132-142). -/
noncomputable def expected_probabilities (elo draw_ratio : ℝ) : ℝ × ℝ × ℝ :=
  let draw := fclamp draw_ratio 0 0.99
  let win_rate := 1 / (1 + (10 : ℝ) ^ (-elo / 400))
  let win := (1 - draw) * win_rate
  let loss := (1 - draw) * (1 - win_rate)
  (max win 1e-12, max draw 1e-12, max loss 1e-12)

/-- Sprt::bounds (sprt.rs lines 113-119). -/
noncomputable def Sprt.bounds (sp : Sprt) : ℝ × ℝ :=
  let alpha := fclamp sp.config.alpha 1e-6 0.5
  let beta := fclamp sp.config.beta 1e-6 0.5
  let lower := Real.log (beta / (1 - alpha))
  let upper := Real.log ((1 - beta) / alpha)
  (lower, upper)

/-- Sprt::calculate_llr (sprt.rs lines 121-129). -/
noncomputable def Sprt.calculate_llr (sp : Sprt) : ℝ :=
  let p0 := expected_probabilities sp.config.h0_elo sp.config.draw_ratio
  let p1 := expected_probabilities sp.config.h1_elo sp.config.draw_ratio
  (sp.wins : ℝ) * Real.log (p1.1 / p0.1) +
    (sp.draws : ℝ) * Real.log (p1.2.1 / p0.2.1) +
    (sp.losses : ℝ) * Real.log (p1.2.2 / p0.2.2)

/-- Sprt::status (sprt.rs lines 92-111). -/
noncomputable def Sprt.status (sp : Sprt) : SprtStatus :=
  let llr := sp.calculate_llr
  let b := sp.bounds
  let state : SprtState :=
    if b.2 ≤ llr then .Accept
    else if llr ≤ b.1 then .Reject
    else .Continue
  { llr := llr, lower_bound := b.1, upper_bound := b.2, state := state,
    wins := sp.wins, draws := sp.draws, losses := sp.losses }

/-- Counter step of Sprt::update_sprt (sprt.rs lines 83-90). -/
def Sprt.record (sp : Sprt) : GameResult → Sprt
  | .Win => { sp with wins := sp.wins + 1 }
  | .Draw => { sp with draws := sp.draws + 1 }
  | .Loss => { sp with losses := sp.losses + 1 }

/-- Sprt::update_sprt mutates the counters and returns the new status. -/
noncomputable def Sprt.update_sprt (sp : Sprt) (r : GameResult) : Sprt × SprtStatus :=
  let sp := sp.record r
  (sp, sp.status)

/-! ## stats.rs: TournamentStats -/

structure TournamentStats where
  wins : ℕ
  losses : ℕ
  draws : ℕ
  total_games : ℕ
  elo_diff : ℝ
  error_margin : ℝ
  sprt_llr : ℝ
  sprt_lower_bound : ℝ
  sprt_upper_bound : ℝ
  sprt_state : String
  sprt_enabled : Bool
  sprt : Sprt

/-- TournamentStats::calculate_elo (stats.rs lines 131-163).  The f64
branches `p <= 0.0` / `p >= 1.0` are two sequential assignments in the
source; as p cannot satisfy both, the second test wins when it holds. -/
noncomputable def calculate_elo (s : TournamentStats) : TournamentStats :=
  if s.total_games = 0 then s
  else
    let score : ℝ := (s.wins : ℝ) + (s.draws : ℝ) * 0.5
    let p : ℝ := score / (s.total_games : ℝ)
    if p ≤ 0 ∨ 1 ≤ p then
      { s with
        elo_diff := if 1 ≤ p then 1000 else if p ≤ 0 then -1000 else s.elo_diff,
        error_margin := 0 }
    else
      let ex2 : ℝ := ((s.wins : ℝ) + 0.25 * (s.draws : ℝ)) / (s.total_games : ℝ)
      let var_x := ex2 - p * p
      let se_p := Real.sqrt (var_x / (s.total_games : ℝ))
      let slope := 400 / (Real.log 10 * p * (1 - p))
      { s with
        elo_diff := -400 * Real.logb 10 (1 / p - 1),
        error_margin := 1.96 * se_p * slope }

/-- TournamentStats::apply_sprt_status (stats.rs lines 165-171). -/
def apply_sprt_status (s : TournamentStats) (st : SprtStatus) : TournamentStats :=
  { s with
    sprt_llr := st.llr,
    sprt_lower_bound := st.lower_bound,
    sprt_upper_bound := st.upper_bound,
    sprt_state := st.state.display }

/-- TournamentStats::update (stats.rs lines 84-125); the string match on the
result becomes an if-chain of string equalities. -/
noncomputable def TournamentStats.update (s : TournamentStats) (result : String)
    (is_white_engine_a : Bool) : TournamentStats :=
  let game_result : Option GameResult :=
    if result = "1-0" then some (if is_white_engine_a then .Win else .Loss)
    else if result = "0-1" then some (if is_white_engine_a then .Loss else .Win)
    else if result = "1/2-1/2" then some .Draw
    else none
  match game_result with
  | none => s
  | some gr =>
    let s :=
      match gr with
      | .Win => { s with wins := s.wins + 1 }
      | .Draw => { s with draws := s.draws + 1 }
      | .Loss => { s with losses := s.losses + 1 }
    let s := { s with total_games := s.total_games + 1 }
    let s := calculate_elo s
    if s.sprt_enabled then
      let r := s.sprt.update_sprt gr
      apply_sprt_status { s with sprt := r.1 } r.2
    else
      { s with
        sprt_state := "Disabled",
        sprt_llr := 0,
        sprt_lower_bound := 0,
        sprt_upper_bound := 0 }

/-! ## uci.rs: AsyncEngine::spawn channel capacities (lines 47-49) -/

structure SpawnChannels where
  stdin_capacity : ℕ
  kill_capacity : ℕ
  stdout_broadcast_capacity : ℕ

/-- Channel capacities chosen by AsyncEngine::spawn (uci.rs lines 47-49):
`mpsc::channel(100)`, `mpsc::channel(1)`, `broadcast::channel(100)`. -/
def spawnChannels : SpawnChannels :=
  { stdin_capacity := 100, kill_capacity := 1, stdout_broadcast_capacity := 100 }

/-! ## arbiter.rs: per-move clock update (lines 1177-1181) -/

/-- Clock update for the side that just moved (arbiter.rs lines 1178-1181):
`clock := max(clock − elapsed, 0) + inc` on i64 milliseconds. -/
def clock_after_move (clock elapsed inc : ℤ) : ℤ :=
  max (clock - elapsed) 0 + inc

/-- Dispatch of the clock update on the mover's colour (arbiter.rs 1178-1181). -/
def apply_clock_update (turnWhite : Bool) (white_time black_time elapsed inc : ℤ) :
    ℤ × ℤ :=
  if turnWhite then (clock_after_move white_time elapsed inc, black_time)
  else (white_time, clock_after_move black_time elapsed inc)

/-! ## Helper lemmas about TournamentStats.update -/

/-- A concrete statistics record used to instantiate theorems. -/
noncomputable def sampleStats : TournamentStats :=
  { wins := 3, losses := 2, draws := 1, total_games := 6,
    elo_diff := 0, error_margin := 0,
    sprt_llr := 0, sprt_lower_bound := 0, sprt_upper_bound := 0,
    sprt_state := "Continue", sprt_enabled := true,
    sprt := Sprt.new { h0_elo := 0, h1_elo := 5, draw_ratio := 0.5, alpha := 0.05, beta := 0.05 } }

lemma update_of_no_match (s : TournamentStats) (r : String) (b : Bool)
    (h1 : r ≠ "1-0") (h2 : r ≠ "0-1") (h3 : r ≠ "1/2-1/2") :
    s.update r b = s := by
  simp [TournamentStats.update, h1, h2, h3]

lemma calculate_elo_wins (s : TournamentStats) : (calculate_elo s).wins = s.wins := by
  simp [calculate_elo, apply_ite TournamentStats.wins]

lemma calculate_elo_losses (s : TournamentStats) : (calculate_elo s).losses = s.losses := by
  simp [calculate_elo, apply_ite TournamentStats.losses]

lemma calculate_elo_draws (s : TournamentStats) : (calculate_elo s).draws = s.draws := by
  simp [calculate_elo, apply_ite TournamentStats.draws]

lemma calculate_elo_total (s : TournamentStats) :
    (calculate_elo s).total_games = s.total_games := by
  simp [calculate_elo, apply_ite TournamentStats.total_games]

/-! ## Claim theorems: C3, C6, C10, C4 -/

/-- C10: for every result string other than exactly "1-0", "0-1" or
"1/2-1/2" (including "*" and any " (forfeit)"-suffixed string) and both
values of the colour flag, TournamentStats::update leaves the whole
statistics record unchanged. -/
theorem claim_C10_update_ignores_unknown (s : TournamentStats) (r : String) (b : Bool)
    (h1 : r ≠ "1-0") (h2 : r ≠ "0-1") (h3 : r ≠ "1/2-1/2") :
    s.update r b = s :=
  update_of_no_match s r b h1 h2 h3

/-- Witness for C10 at the forfeit-suffixed string "1-0 (forfeit)". -/
theorem claim_C10_witness :
    sampleStats.update "1-0 (forfeit)" true = sampleStats :=
  claim_C10_update_ignores_unknown sampleStats "1-0 (forfeit)" true
    (by decide) (by decide) (by decide)

/-- C4 counterexample: contrary to the claim, a result string suffixed with
" (forfeit)" does not increase total_games by one; update ignores it. -/
theorem claim_C4_counterexample :
    ¬ (sampleStats.update "1-0 (forfeit)" true).total_games =
        sampleStats.total_games + 1 := by
  rw [update_of_no_match sampleStats "1-0 (forfeit)" true
    (by decide) (by decide) (by decide)]
  decide

/-- C4 (amended: only the exact strings "1-0", "0-1", "1/2-1/2" count; a
" (forfeit)" suffix makes update ignore the result): for the exact strings,
update adds one to total_games and increments exactly one of wins, losses,
draws by one, chosen from engine A's perspective via is_white_engine_a. -/
theorem claim_C4_update_counts (s : TournamentStats) (r : String) (b : Bool)
    (h : r = "1-0" ∨ r = "0-1" ∨ r = "1/2-1/2") :
    (s.update r b).total_games = s.total_games + 1 ∧
    (s.update r b).wins + (s.update r b).losses + (s.update r b).draws =
      s.wins + s.losses + s.draws + 1 ∧
    ((s.update r b).wins = s.wins ∨ (s.update r b).wins = s.wins + 1) ∧
    ((s.update r b).losses = s.losses ∨ (s.update r b).losses = s.losses + 1) ∧
    ((s.update r b).draws = s.draws ∨ (s.update r b).draws = s.draws + 1) ∧
    ((s.update r b).wins = s.wins + 1 ↔
      (b = true ∧ r = "1-0") ∨ (b = false ∧ r = "0-1")) ∧
    ((s.update r b).losses = s.losses + 1 ↔
      (b = true ∧ r = "0-1") ∨ (b = false ∧ r = "1-0")) ∧
    ((s.update r b).draws = s.draws + 1 ↔ r = "1/2-1/2") := by
  rcases h with h | h | h <;> subst h <;> cases b <;>
    simp [TournamentStats.update, apply_sprt_status,
      apply_ite TournamentStats.wins, apply_ite TournamentStats.losses,
      apply_ite TournamentStats.draws, apply_ite TournamentStats.total_games,
      calculate_elo_wins, calculate_elo_losses, calculate_elo_draws,
      calculate_elo_total] <;> omega

/-- Witness for C4 at the result "1-0" with engine A playing white. -/
theorem claim_C4_witness :
    (sampleStats.update "1-0" true).total_games = sampleStats.total_games + 1 ∧
    (sampleStats.update "1-0" true).wins + (sampleStats.update "1-0" true).losses +
        (sampleStats.update "1-0" true).draws =
      sampleStats.wins + sampleStats.losses + sampleStats.draws + 1 ∧
    ((sampleStats.update "1-0" true).wins = sampleStats.wins ∨
      (sampleStats.update "1-0" true).wins = sampleStats.wins + 1) ∧
    ((sampleStats.update "1-0" true).losses = sampleStats.losses ∨
      (sampleStats.update "1-0" true).losses = sampleStats.losses + 1) ∧
    ((sampleStats.update "1-0" true).draws = sampleStats.draws ∨
      (sampleStats.update "1-0" true).draws = sampleStats.draws + 1) ∧
    ((sampleStats.update "1-0" true).wins = sampleStats.wins + 1 ↔
      (true = true ∧ "1-0" = "1-0") ∨ (true = false ∧ "1-0" = "0-1")) ∧
    ((sampleStats.update "1-0" true).losses = sampleStats.losses + 1 ↔
      (true = true ∧ "1-0" = "0-1") ∨ (true = false ∧ "1-0" = "1-0")) ∧
    ((sampleStats.update "1-0" true).draws = sampleStats.draws + 1 ↔
      "1-0" = "1/2-1/2") :=
  claim_C4_update_counts sampleStats "1-0" true (Or.inl rfl)

/-- C3 counterexample: the broadcast buffer handed out by spawn has
capacity 100, not at least 10 000 as claimed. -/
theorem claim_C3_counterexample :
    ¬ 10000 ≤ spawnChannels.stdout_broadcast_capacity := by decide

/-- C3 (amended: the broadcast stream of every successfully spawned engine
has a buffer capacity of exactly 100 entries, not at least 10 000). -/
theorem claim_C3_capacity : spawnChannels.stdout_broadcast_capacity = 100 := rfl

/-- C6 counterexample: with clock_before = 100 ms, elapsed = 200 ms and
inc = 50 ms (the engine answered inside the 5-second grace window but over
its remaining time) the updated clock is 50, which exceeds
clock_before − elapsed + inc = −50, refuting the claimed upper bound. -/
theorem claim_C6_counterexample :
    ¬ (0 ≤ clock_after_move 100 200 50 ∧
        clock_after_move 100 200 50 ≤ 100 - 200 + 50) := by decide

/-- C6 (amended: the updated clock equals max(clock − elapsed, 0) + inc, so
it is always nonnegative, and the claimed upper bound
clock_after ≤ clock_before − elapsed + inc holds whenever the measured
think time does not exceed the remaining clock). -/
theorem claim_C6_clock_bounds (c e i : ℤ) (hi : 0 ≤ i) :
    0 ≤ clock_after_move c e i ∧
    (e ≤ c → clock_after_move c e i ≤ c - e + i) := by
  constructor
  · have h := le_max_right (c - e) (0 : ℤ)
    simp only [clock_after_move]
    linarith
  · intro h
    have hm : max (c - e) 0 = c - e := max_eq_left (by linarith)
    simp only [clock_after_move, hm]
    exact le_refl _

/-- Witness for C6 at clock 100, elapsed 30, increment 10. -/
theorem claim_C6_witness :
    0 ≤ clock_after_move 100 30 10 ∧
    ((30 : ℤ) ≤ 100 → clock_after_move 100 30 10 ≤ 100 - 30 + 10) :=
  claim_C6_clock_bounds 100 30 10 (by decide)

/-! ## SPRT lemmas and claim C5 -/

lemma fclamp_bounds (x lo hi : ℝ) (h : lo ≤ hi) :
    lo ≤ fclamp x lo hi ∧ fclamp x lo hi ≤ hi :=
  ⟨le_min (le_max_right x lo) h, min_le_right _ _⟩

lemma ep_pos (elo dr : ℝ) :
    0 < (expected_probabilities elo dr).1 ∧
    0 < (expected_probabilities elo dr).2.1 ∧
    0 < (expected_probabilities elo dr).2.2 := by
  simp only [expected_probabilities]
  refine ⟨?_, ?_, ?_⟩ <;>
    exact lt_of_lt_of_le (by norm_num) (le_max_right _ _)

lemma llr_zero_of_equal_elo (sp : Sprt) (h : sp.config.h0_elo = sp.config.h1_elo) :
    sp.calculate_llr = 0 := by
  simp only [Sprt.calculate_llr]
  rw [h]
  have h1 := (ep_pos sp.config.h1_elo sp.config.draw_ratio).1
  have h2 := (ep_pos sp.config.h1_elo sp.config.draw_ratio).2.1
  have h3 := (ep_pos sp.config.h1_elo sp.config.draw_ratio).2.2
  rw [div_self (ne_of_gt h1), div_self (ne_of_gt h2), div_self (ne_of_gt h3),
    Real.log_one]
  ring

/-- C5 counterexample: with alpha = beta = 0.5 (inside the clamp range) and
h0_elo = h1_elo, the LLR is 0 but both decision bounds are 0, so status
reports Accept, not Continue as the claim asserts for every alpha and beta. -/
theorem claim_C5_counterexample :
    (Sprt.mk { h0_elo := 0, h1_elo := 0, draw_ratio := 0.5, alpha := 0.5, beta := 0.5 }
        0 0 0).status.state = SprtState.Accept := by
  have hl : (Sprt.mk { h0_elo := 0, h1_elo := 0, draw_ratio := 0.5, alpha := 0.5, beta := 0.5 }
      0 0 0).calculate_llr = 0 :=
    llr_zero_of_equal_elo _ rfl
  have hc : fclamp 0.5 1e-6 0.5 = 0.5 := by
    unfold fclamp
    rw [max_eq_left (by norm_num), min_eq_left (by norm_num)]
  simp only [Sprt.status, Sprt.bounds, hl, hc]
  norm_num

/-- C5 (amended: with h0_elo = h1_elo the LLR is exactly 0 and the bounds
are (ln(beta/(1−alpha)), ln((1−beta)/alpha)) after clamping alpha, beta to
[1e-6, 0.5]; the state is Continue unless both clamped parameters equal
0.5, the degenerate case in which both bounds are 0 and the state is
Accept). -/
theorem claim_C5_sprt (sp : Sprt) (h : sp.config.h0_elo = sp.config.h1_elo) :
    sp.status.llr = 0 ∧
    sp.status.lower_bound =
      Real.log (fclamp sp.config.beta 1e-6 0.5 / (1 - fclamp sp.config.alpha 1e-6 0.5)) ∧
    sp.status.upper_bound =
      Real.log ((1 - fclamp sp.config.beta 1e-6 0.5) / fclamp sp.config.alpha 1e-6 0.5) ∧
    (sp.status.state = SprtState.Continue ↔
      ¬ (fclamp sp.config.alpha 1e-6 0.5 = 0.5 ∧ fclamp sp.config.beta 1e-6 0.5 = 0.5)) ∧
    (sp.status.state = SprtState.Accept ↔
      (fclamp sp.config.alpha 1e-6 0.5 = 0.5 ∧ fclamp sp.config.beta 1e-6 0.5 = 0.5)) := by
  have hllr := llr_zero_of_equal_elo sp h
  have ha := fclamp_bounds sp.config.alpha 1e-6 0.5 (by norm_num)
  have hb := fclamp_bounds sp.config.beta 1e-6 0.5 (by norm_num)
  set a := fclamp sp.config.alpha 1e-6 0.5 with hadef
  set bb := fclamp sp.config.beta 1e-6 0.5 with hbdef
  have ha0 : 0 < a := lt_of_lt_of_le (by norm_num) ha.1
  have hb0 : 0 < bb := lt_of_lt_of_le (by norm_num) hb.1
  have hA : 1 - a > 0 := by nlinarith [ha.2]
  refine ⟨by simp [Sprt.status, hllr], by simp [Sprt.status, Sprt.bounds], by
    simp [Sprt.status, Sprt.bounds], ?_, ?_⟩ <;>
  · by_cases hcrit : a = 0.5 ∧ bb = 0.5
    · have hup : Real.log ((1 - bb) / a) = 0 := by
        rw [hcrit.1, hcrit.2]
        norm_num
      simp [Sprt.status, Sprt.bounds, hllr, hup, hcrit]
    · have hsum : a + bb < 1 := by
        rcases (not_and_or.mp hcrit) with hne | hne
        · have : a < 0.5 := lt_of_le_of_ne ha.2 hne
          nlinarith [hb.2]
        · have : bb < 0.5 := lt_of_le_of_ne hb.2 hne
          nlinarith [ha.2]
      have hup : 0 < Real.log ((1 - bb) / a) :=
        Real.log_pos ((one_lt_div ha0).mpr (by linarith))
      have hlo : Real.log (bb / (1 - a)) < 0 :=
        Real.log_neg (div_pos hb0 hA) ((div_lt_one hA).mpr (by linarith))
      simp [Sprt.status, Sprt.bounds, hllr, hcrit, not_le.mpr hup, not_le.mpr hlo]

/-- Concrete SPRT instance used by the C5 witness. -/
noncomputable def sampleSprt : Sprt :=
  { config := { h0_elo := 0, h1_elo := 0, draw_ratio := 0.5, alpha := 0.05, beta := 0.05 },
    wins := 3, draws := 2, losses := 1 }

/-- Witness for C5 at h0 = h1 = 0, alpha = beta = 0.05. -/
theorem claim_C5_witness :
    sampleSprt.status.llr = 0 ∧
    sampleSprt.status.lower_bound =
      Real.log (fclamp sampleSprt.config.beta 1e-6 0.5 /
        (1 - fclamp sampleSprt.config.alpha 1e-6 0.5)) ∧
    sampleSprt.status.upper_bound =
      Real.log ((1 - fclamp sampleSprt.config.beta 1e-6 0.5) /
        fclamp sampleSprt.config.alpha 1e-6 0.5) ∧
    (sampleSprt.status.state = SprtState.Continue ↔
      ¬ (fclamp sampleSprt.config.alpha 1e-6 0.5 = 0.5 ∧
          fclamp sampleSprt.config.beta 1e-6 0.5 = 0.5)) ∧
    (sampleSprt.status.state = SprtState.Accept ↔
      (fclamp sampleSprt.config.alpha 1e-6 0.5 = 0.5 ∧
        fclamp sampleSprt.config.beta 1e-6 0.5 = 0.5)) :=
  claim_C5_sprt sampleSprt rfl

/-! ## Claim C7: calculate_elo boundary and interior behaviour -/

/-- Statistics with 100 games that are all draws. -/
noncomputable def drawStats : TournamentStats :=
  { sampleStats with wins := 0, losses := 0, draws := 100, total_games := 100 }

/-- C7 counterexample: at 100 draws out of 100 games the score fraction is
1/2, strictly between 0 and 1, yet the error margin computed by
calculate_elo is exactly 0 (the per-game score variance vanishes), refuting
the claim that the margin is strictly positive for every 0 < p < 1.  The
repository's own test test_elo_calculation_balanced_draws asserts this. -/
theorem claim_C7_counterexample :
    (0 : ℝ) < ((drawStats.wins : ℝ) + (drawStats.draws : ℝ) * 0.5) /
        (drawStats.total_games : ℝ) ∧
    ((drawStats.wins : ℝ) + (drawStats.draws : ℝ) * 0.5) /
        (drawStats.total_games : ℝ) < 1 ∧
    (calculate_elo drawStats).error_margin = 0 := by
  have h1 : ((drawStats.wins : ℝ) + (drawStats.draws : ℝ) * 0.5) /
      (drawStats.total_games : ℝ) = 0.5 := by
    simp only [drawStats, sampleStats]
    norm_num
  refine ⟨by rw [h1]; norm_num, by rw [h1]; norm_num, ?_⟩
  simp only [calculate_elo, drawStats, sampleStats]
  norm_num [Real.sqrt_eq_zero]

/-- C7 (amended: at the boundary fractions the estimate is clamped to
±1000 with margin 0; for 0 < p < 1 the estimate is
−400·log10(1/p − 1) and the margin is nonnegative, strictly positive
except in the all-draws state where the score variance is zero). -/
theorem claim_C7_elo (s : TournamentStats) (htot : 0 < s.total_games)
    (hsum : s.wins + s.draws + s.losses = s.total_games) :
    ((((s.wins : ℝ) + (s.draws : ℝ) * 0.5) / (s.total_games : ℝ)) = 0 →
      (calculate_elo s).elo_diff = -1000 ∧ (calculate_elo s).error_margin = 0) ∧
    ((((s.wins : ℝ) + (s.draws : ℝ) * 0.5) / (s.total_games : ℝ)) = 1 →
      (calculate_elo s).elo_diff = 1000 ∧ (calculate_elo s).error_margin = 0) ∧
    (0 < (((s.wins : ℝ) + (s.draws : ℝ) * 0.5) / (s.total_games : ℝ)) →
      (((s.wins : ℝ) + (s.draws : ℝ) * 0.5) / (s.total_games : ℝ)) < 1 →
      (calculate_elo s).elo_diff =
        -400 * Real.logb 10
          (1 / (((s.wins : ℝ) + (s.draws : ℝ) * 0.5) / (s.total_games : ℝ)) - 1) ∧
      0 ≤ (calculate_elo s).error_margin ∧
      (¬ (s.wins = 0 ∧ s.losses = 0) → 0 < (calculate_elo s).error_margin)) := by
  have htnz : ¬ s.total_games = 0 := by omega
  have ht : (0 : ℝ) < (s.total_games : ℝ) := by exact_mod_cast htot
  set p : ℝ := ((s.wins : ℝ) + (s.draws : ℝ) * 0.5) / (s.total_games : ℝ) with hpdef
  refine ⟨?_, ?_, ?_⟩
  · intro hp
    simp only [calculate_elo, htnz, if_false, ← hpdef]
    rw [if_pos (Or.inl (le_of_eq hp))]
    constructor
    · rw [if_neg (by rw [hp]; norm_num), if_pos (le_of_eq hp)]
    · rfl
  · intro hp
    simp only [calculate_elo, htnz, if_false, ← hpdef]
    rw [if_pos (Or.inr (le_of_eq hp.symm))]
    constructor
    · rw [if_pos (le_of_eq hp.symm)]
    · rfl
  · intro hp0 hp1
    have hcond : ¬ (p ≤ 0 ∨ 1 ≤ p) := by
      push_neg
      exact ⟨hp0, hp1⟩
    simp only [calculate_elo, htnz, if_false, ← hpdef]
    rw [if_neg hcond]
    refine ⟨rfl, ?_, ?_⟩
    · have hslope : 0 < 400 / (Real.log 10 * p * (1 - p)) := by
        apply div_pos (by norm_num)
        have hlog : 0 < Real.log 10 := Real.log_pos (by norm_num)
        exact mul_pos (mul_pos hlog hp0) (by linarith)
      have hsq : 0 ≤ Real.sqrt ((((s.wins : ℝ) + 0.25 * (s.draws : ℝ)) /
          (s.total_games : ℝ) - p * p) / (s.total_games : ℝ)) := Real.sqrt_nonneg _
      positivity
    · intro hwl
      have hvar : (((s.wins : ℝ) + 0.25 * (s.draws : ℝ)) / (s.total_games : ℝ) - p * p) =
          ((s.wins : ℝ) * (s.losses : ℝ) + (s.wins : ℝ) * (s.draws : ℝ) / 4 +
            (s.losses : ℝ) * (s.draws : ℝ) / 4) /
            ((s.total_games : ℝ) * (s.total_games : ℝ)) := by
        have htne : (s.total_games : ℝ) ≠ 0 := ne_of_gt ht
        have htr : (s.total_games : ℝ) = (s.wins : ℝ) + (s.draws : ℝ) + (s.losses : ℝ) := by
          exact_mod_cast hsum.symm
        rw [hpdef]
        field_simp
        rw [htr]
        ring
      have hnum : 0 < (s.wins : ℝ) * (s.losses : ℝ) + (s.wins : ℝ) * (s.draws : ℝ) / 4 +
          (s.losses : ℝ) * (s.draws : ℝ) / 4 := by
        have hwd : 0 < (s.wins : ℝ) + (s.draws : ℝ) * 0.5 := by
          by_contra hc
          push_neg at hc
          have : p ≤ 0 := div_nonpos_of_nonpos_of_nonneg hc ht.le
          linarith
        have hdl : 0 < (s.draws : ℝ) * 0.5 + (s.losses : ℝ) := by
          have hlt : (s.wins : ℝ) + (s.draws : ℝ) * 0.5 < (s.total_games : ℝ) := by
            have := (div_lt_one ht).mp hp1
            linarith
          have htr : (s.total_games : ℝ) = (s.wins : ℝ) + (s.draws : ℝ) + (s.losses : ℝ) := by
            exact_mod_cast hsum.symm
          rw [htr] at hlt
          linarith
        have hw0 : (0 : ℝ) ≤ (s.wins : ℝ) := Nat.cast_nonneg _
        have hd0 : (0 : ℝ) ≤ (s.draws : ℝ) := Nat.cast_nonneg _
        have hl0 : (0 : ℝ) ≤ (s.losses : ℝ) := Nat.cast_nonneg _
        rcases Nat.eq_zero_or_pos s.wins with hw | hw
        · have hwR : (s.wins : ℝ) = 0 := by exact_mod_cast hw
          have hl : 0 < s.losses := by
            rcases Nat.eq_zero_or_pos s.losses with hl | hl
            · exact absurd ⟨hw, hl⟩ hwl
            · exact hl
          have hd : 0 < (s.draws : ℝ) := by
            rw [hwR] at hwd
            linarith
          have hlR : 0 < (s.losses : ℝ) := by exact_mod_cast hl
          nlinarith
        · have hwR : 0 < (s.wins : ℝ) := by exact_mod_cast hw
          rcases Nat.eq_zero_or_pos s.losses with hl | hl
          · have hlR : (s.losses : ℝ) = 0 := by exact_mod_cast hl
            have hd : 0 < (s.draws : ℝ) := by
              rw [hlR] at hdl
              linarith
            nlinarith
          · have hlR : 0 < (s.losses : ℝ) := by exact_mod_cast hl
            nlinarith
      have hvarpos : 0 < (((s.wins : ℝ) + 0.25 * (s.draws : ℝ)) / (s.total_games : ℝ) - p * p) := by
        rw [hvar]
        positivity
      have hsq : 0 < Real.sqrt ((((s.wins : ℝ) + 0.25 * (s.draws : ℝ)) /
          (s.total_games : ℝ) - p * p) / (s.total_games : ℝ)) :=
        Real.sqrt_pos.mpr (div_pos hvarpos ht)
      have hslope : 0 < 400 / (Real.log 10 * p * (1 - p)) := by
        apply div_pos (by norm_num)
        have hlog : 0 < Real.log 10 := Real.log_pos (by norm_num)
        exact mul_pos (mul_pos hlog hp0) (by linarith)
      positivity

/-- Witness for C7 at 6 wins, 2 draws, 2 losses in 10 games. -/
noncomputable def midStats : TournamentStats :=
  { sampleStats with wins := 6, losses := 2, draws := 2, total_games := 10 }

/-- Witness for C7: instantiation at midStats, whose score fraction 0.7 is
interior. -/
theorem claim_C7_witness :
    ((((midStats.wins : ℝ) + (midStats.draws : ℝ) * 0.5) / (midStats.total_games : ℝ)) = 0 →
      (calculate_elo midStats).elo_diff = -1000 ∧ (calculate_elo midStats).error_margin = 0) ∧
    ((((midStats.wins : ℝ) + (midStats.draws : ℝ) * 0.5) / (midStats.total_games : ℝ)) = 1 →
      (calculate_elo midStats).elo_diff = 1000 ∧ (calculate_elo midStats).error_margin = 0) ∧
    (0 < (((midStats.wins : ℝ) + (midStats.draws : ℝ) * 0.5) / (midStats.total_games : ℝ)) →
      (((midStats.wins : ℝ) + (midStats.draws : ℝ) * 0.5) / (midStats.total_games : ℝ)) < 1 →
      (calculate_elo midStats).elo_diff =
        -400 * Real.logb 10
          (1 / (((midStats.wins : ℝ) + (midStats.draws : ℝ) * 0.5) /
            (midStats.total_games : ℝ)) - 1) ∧
      0 ≤ (calculate_elo midStats).error_margin ∧
      (¬ (midStats.wins = 0 ∧ midStats.losses = 0) →
        0 < (calculate_elo midStats).error_margin)) :=
  claim_C7_elo midStats (by norm_num [midStats, sampleStats]) (by norm_num [midStats, sampleStats])

/-! ## arbiter.rs: generate_start_fen (lines 849-872)

The two uniform choices and the shuffle of the remaining six files are
modelled as inputs: b1_pos is the chosen dark square, b2_pos the chosen
light square, and the shuffled list is any permutation of the remaining
files (the hypotheses of the claim theorem state exactly the sets the
code draws from). -/

inductive Role where
  | Pawn
  | Knight
  | Bishop
  | Rook
  | Queen
  | King
deriving DecidableEq, Repr

def Role.upper_char : Role → Char
  | .Pawn => 'P'
  | .Knight => 'N'
  | .Bishop => 'B'
  | .Rook => 'R'
  | .Queen => 'Q'
  | .King => 'K'

def Role.lower_char : Role → Char
  | .Pawn => 'p'
  | .Knight => 'n'
  | .Bishop => 'b'
  | .Rook => 'r'
  | .Queen => 'q'
  | .King => 'k'

/-- The back rank assembled by the chess960 branch of generate_start_fen
(arbiter.rs lines 853-864): bishops on the chosen dark and light squares,
queen and knights on the first three shuffled files, and rook, king, rook
on the remaining three files in ascending order. -/
def chess960Rank (b1_pos b2_pos : ℕ) (shuffled : List ℕ) : List Role :=
  let q_pos := shuffled.getD 0 0
  let n1_pos := shuffled.getD 1 0
  let n2_pos := shuffled.getD 2 0
  let rem := (shuffled.drop 3).mergeSort
  let r1_pos := rem.getD 0 0
  let k_pos := rem.getD 1 0
  let r2_pos := rem.getD 2 0
  ((((((((List.replicate 8 Role.Pawn).set b1_pos .Bishop).set b2_pos
    .Bishop).set q_pos .Queen).set n1_pos .Knight).set n2_pos
    .Knight).set r1_pos .Rook).set k_pos .King).set r2_pos .Rook

/-- generate_start_fen (arbiter.rs lines 849-872) as a function of the
variant string and the random outcomes. -/
def generate_start_fen (variant : String) (b1_pos b2_pos : ℕ)
    (shuffled : List ℕ) : String :=
  if variant = "chess960" then
    let rank := chess960Rank b1_pos b2_pos shuffled
    String.mk (rank.map Role.upper_char) ++ "/pppppppp/8/8/8/8/PPPPPPPP/" ++
      String.mk (rank.map Role.lower_char) ++ " w KQkq - 0 1"
  else "rnbqkbnr/pppppppp/8/8/8/8/PPPPPPPP/RNBQKBNR w KQkq - 0 1"

lemma getD_set_self {α : Type} (l : List α) (i : ℕ) (a d : α) (h : i < l.length) :
    (l.set i a).getD i d = a := by
  rw [List.getD_eq_getElem?_getD, List.getElem?_set_eq_of_lt a h]
  rfl

lemma getD_set_other {α : Type} (l : List α) (i j : ℕ) (a d : α) (h : i ≠ j) :
    (l.set i a).getD j d = l.getD j d := by
  rw [List.getD_eq_getElem?_getD, List.getElem?_set_ne h, List.getD_eq_getElem?_getD]

/-- C9: for every outcome of the random choices (a dark square for the
first bishop, a light square for the second, any shuffle of the remaining
six files) the generated back rank has bishops on opposite-coloured
squares, and the last three remaining files receive rook, king, rook in
ascending file order, so the king stands strictly between its rooks. -/
theorem claim_C9_back_rank (b1 b2 : ℕ) (shuffled : List ℕ)
    (hb1 : b1 ∈ [0, 2, 4, 6]) (hb2 : b2 ∈ [1, 3, 5, 7])
    (hsh : shuffled.Perm ((List.range 8).filter (fun i => i != b1 && i != b2))) :
    (chess960Rank b1 b2 shuffled).getD b1 Role.Pawn = Role.Bishop ∧
    (chess960Rank b1 b2 shuffled).getD b2 Role.Pawn = Role.Bishop ∧
    b1 % 2 = 0 ∧ b2 % 2 = 1 ∧
    ((shuffled.drop 3).mergeSort).getD 0 0 < ((shuffled.drop 3).mergeSort).getD 1 0 ∧
    ((shuffled.drop 3).mergeSort).getD 1 0 < ((shuffled.drop 3).mergeSort).getD 2 0 ∧
    (chess960Rank b1 b2 shuffled).getD (((shuffled.drop 3).mergeSort).getD 0 0)
      Role.Pawn = Role.Rook ∧
    (chess960Rank b1 b2 shuffled).getD (((shuffled.drop 3).mergeSort).getD 1 0)
      Role.Pawn = Role.King ∧
    (chess960Rank b1 b2 shuffled).getD (((shuffled.drop 3).mergeSort).getD 2 0)
      Role.Pawn = Role.Rook := by
  have hb1' : b1 = 0 ∨ b1 = 2 ∨ b1 = 4 ∨ b1 = 6 := by simpa using hb1
  have hb2' : b2 = 1 ∨ b2 = 3 ∨ b2 = 5 ∨ b2 = 7 := by simpa using hb2
  have hbase : ((List.range 8).filter (fun i => i != b1 && i != b2)).length = 6 ∧
      b2 ≠ b1 ∧ b1 < 8 ∧ b2 < 8 ∧ b1 % 2 = 0 ∧ b2 % 2 = 1 := by
    rcases hb1' with rfl | rfl | rfl | rfl <;> rcases hb2' with rfl | rfl | rfl | rfl <;> decide
  have hslen : shuffled.length = 6 := hsh.length_eq.trans hbase.1
  have hFnodup : ((List.range 8).filter (fun i => i != b1 && i != b2)).Nodup :=
    (List.nodup_range 8).filter _
  have hsnodup : shuffled.Nodup := hsh.nodup_iff.mpr hFnodup
  have hsmem : ∀ x ∈ shuffled, x ≠ b1 ∧ x ≠ b2 ∧ x < 8 := by
    intro x hx
    have hxF := hsh.mem_iff.mp hx
    simp only [List.mem_filter, List.mem_range, Bool.and_eq_true, bne_iff_ne, ne_eq] at hxF
    exact ⟨hxF.2.1, hxF.2.2, hxF.1⟩
  obtain ⟨a0, t0, rfl⟩ := List.exists_of_length_succ _ hslen
  have ht0 : t0.length = 5 := by simpa using hslen
  obtain ⟨a1, t1, rfl⟩ := List.exists_of_length_succ _ ht0
  have ht1 : t1.length = 4 := by simpa using ht0
  obtain ⟨a2, t2, rfl⟩ := List.exists_of_length_succ _ ht1
  have ht2 : t2.length = 3 := by simpa using ht1
  obtain ⟨a3, a4, a5, rfl⟩ := List.length_eq_three.mp ht2
  have hrp0 : (([a3, a4, a5] : List ℕ).mergeSort).Perm [a3, a4, a5] :=
    List.mergeSort_perm _ _
  have hrs0 : (([a3, a4, a5] : List ℕ).mergeSort).Sorted (· ≤ ·) :=
    List.sorted_mergeSort' _
  have h3 : (([a3, a4, a5] : List ℕ).mergeSort).length = 3 := hrp0.length_eq
  obtain ⟨x, y, z, hxyz⟩ := List.length_eq_three.mp h3
  rw [hxyz] at hrp0 hrs0
  have hsub : ([a3, a4, a5] : List ℕ) <:+ (a0 :: a1 :: a2 :: [a3, a4, a5]) :=
    ⟨[a0, a1, a2], rfl⟩
  have hnd345 : ([a3, a4, a5] : List ℕ).Nodup := hsnodup.sublist hsub.sublist
  have hrn : ([x, y, z] : List ℕ).Nodup := hrp0.nodup_iff.mpr hnd345
  have hxy : x < y ∧ y < z := by
    have hs1 := List.sorted_cons.mp hrs0
    have hs2 := List.sorted_cons.mp hs1.2
    have hnx := List.nodup_cons.mp hrn
    have hny := List.nodup_cons.mp hnx.2
    refine ⟨lt_of_le_of_ne (hs1.1 y (by simp)) ?_, lt_of_le_of_ne (hs2.1 z (by simp)) ?_⟩
    · intro hc
      exact hnx.1 (by simp [hc])
    · intro hc
      exact hny.1 (by simp [hc])
  have hks : ∀ w, (w = a3 ∨ w = a4 ∨ w = a5) → w ≠ b1 ∧ w ≠ b2 ∧ w < 8 := by
    intro w hw
    apply hsmem
    rcases hw with rfl | rfl | rfl <;> simp
  have hmx : x = a3 ∨ x = a4 ∨ x = a5 := by
    have := hrp0.mem_iff.mp (List.mem_cons_self x [y, z])
    simpa using this
  have hmy : y = a3 ∨ y = a4 ∨ y = a5 := by
    have := hrp0.mem_iff.mp (by simp : y ∈ [x, y, z])
    simpa using this
  have hmz : z = a3 ∨ z = a4 ∨ z = a5 := by
    have := hrp0.mem_iff.mp (by simp : z ∈ [x, y, z])
    simpa using this
  have hxf := hks x hmx
  have hyf := hks y hmy
  have hzf := hks z hmz
  have ha0 := hsmem a0 (by simp)
  have ha1 := hsmem a1 (by simp)
  have ha2 := hsmem a2 (by simp)
  have hlen8 : ∀ m : List Role, m.length = 8 → ∀ i a, (m.set i a).length = 8 := by
    intro m hm i a
    simp [List.length_set, hm]
  simp only [chess960Rank, List.drop_succ_cons, List.drop_zero, List.getD_cons_zero,
    List.getD_cons_succ]
  rw [hxyz]
  simp only [List.getD_cons_zero, List.getD_cons_succ]
  refine ⟨?_, ?_, hbase.2.2.2.2.1, hbase.2.2.2.2.2, hxy.1, hxy.2, ?_, ?_, ?_⟩
  · rw [getD_set_other _ _ _ _ _ hzf.1, getD_set_other _ _ _ _ _ hyf.1,
      getD_set_other _ _ _ _ _ hxf.1,
      getD_set_other _ _ _ _ _ ha2.1, getD_set_other _ _ _ _ _ ha1.1,
      getD_set_other _ _ _ _ _ ha0.1, getD_set_other _ _ _ _ _ hbase.2.1]
    exact getD_set_self _ _ _ _ (by simp [hbase.2.2.1])
  · rw [getD_set_other _ _ _ _ _ hzf.2.1, getD_set_other _ _ _ _ _ hyf.2.1,
      getD_set_other _ _ _ _ _ hxf.2.1,
      getD_set_other _ _ _ _ _ ha2.2.1, getD_set_other _ _ _ _ _ ha1.2.1,
      getD_set_other _ _ _ _ _ ha0.2.1]
    exact getD_set_self _ _ _ _ (by simp [hbase.2.2.2.1])
  · rw [getD_set_other _ _ _ _ _ (hxy.1.trans hxy.2).ne',
      getD_set_other _ _ _ _ _ hxy.1.ne']
    exact getD_set_self _ _ _ _ (by simp [hxf.2.2])
  · rw [getD_set_other _ _ _ _ _ hxy.2.ne']
    exact getD_set_self _ _ _ _ (by simp [hyf.2.2])
  · exact getD_set_self _ _ _ _ (by simp [hzf.2.2])

/-- Witness for C9 at b1 = 0, b2 = 1, shuffle [7, 6, 5, 4, 3, 2]. -/
theorem claim_C9_witness :
    (chess960Rank 0 1 [7, 6, 5, 4, 3, 2]).getD 0 Role.Pawn = Role.Bishop ∧
    (chess960Rank 0 1 [7, 6, 5, 4, 3, 2]).getD 1 Role.Pawn = Role.Bishop ∧
    0 % 2 = 0 ∧ 1 % 2 = 1 ∧
    ((([7, 6, 5, 4, 3, 2] : List ℕ).drop 3).mergeSort).getD 0 0 <
      ((([7, 6, 5, 4, 3, 2] : List ℕ).drop 3).mergeSort).getD 1 0 ∧
    ((([7, 6, 5, 4, 3, 2] : List ℕ).drop 3).mergeSort).getD 1 0 <
      ((([7, 6, 5, 4, 3, 2] : List ℕ).drop 3).mergeSort).getD 2 0 ∧
    (chess960Rank 0 1 [7, 6, 5, 4, 3, 2]).getD
      (((([7, 6, 5, 4, 3, 2] : List ℕ).drop 3).mergeSort).getD 0 0) Role.Pawn = Role.Rook ∧
    (chess960Rank 0 1 [7, 6, 5, 4, 3, 2]).getD
      (((([7, 6, 5, 4, 3, 2] : List ℕ).drop 3).mergeSort).getD 1 0) Role.Pawn = Role.King ∧
    (chess960Rank 0 1 [7, 6, 5, 4, 3, 2]).getD
      (((([7, 6, 5, 4, 3, 2] : List ℕ).drop 3).mergeSort).getD 2 0) Role.Pawn = Role.Rook :=
  claim_C9_back_rank 0 1 [7, 6, 5, 4, 3, 2] (by decide) (by decide) (by decide)

/-! ## arbiter.rs: score adjudication in play_game_static (lines 1183-1229)

The loop iteration that reaches the adjudication block has played
moves_history.len() = i moves, so the move number used by the draw check
is i / 2 + 1.  The thresholds 1000 cp / 5 moves (resign) and move 40 /
5 cp / 20 moves (draw) are hard-coded literals in the source; the
tournament's AdjudicationConfig is never consulted there. -/

structure AdjState where
  consec_resign_moves : ℕ
  consec_draw_moves : ℕ
deriving DecidableEq, Repr

/-- Counter update of one loop iteration (arbiter.rs lines 1184-1201);
when no score was reported the counters are left untouched. -/
def adjStep (move_num : ℕ) (move_score : Option ℤ) (st : AdjState) : AdjState :=
  match move_score with
  | none => st
  | some score =>
    { consec_resign_moves :=
        if 1000 < score.natAbs then st.consec_resign_moves + 1 else 0,
      consec_draw_moves :=
        if 40 ≤ move_num then
          (if score.natAbs ≤ 5 then st.consec_draw_moves + 1 else 0)
        else 0 }

/-- Adjudication decision checked right after the counter update
(arbiter.rs lines 1203-1229); turnWhite is the mover's colour and
move_score the score latched during this move's search. -/
def adjDecision (turnWhite : Bool) (move_score : Option ℤ) (st : AdjState) :
    Option String :=
  if 5 ≤ st.consec_resign_moves then
    some (match move_score with
      | some s =>
        if 0 < s then (if turnWhite then "1-0" else "0-1")
        else (if turnWhite then "0-1" else "1-0")
      | none => "1/2-1/2")
  else if 20 ≤ st.consec_draw_moves then some "1/2-1/2"
  else none

def adjRunAux : ℕ → AdjState → List (Option ℤ) → AdjState
  | _, st, [] => st
  | i, st, s :: rest => adjRunAux (i + 1) (adjStep (i / 2 + 1) s st) rest

/-- Counter state after the game loop has processed the given per-move
score reports, starting from the zero counters of arbiter.rs 1045-1046. -/
def adjRun (scores : List (Option ℤ)) : AdjState :=
  adjRunAux 0 { consec_resign_moves := 0, consec_draw_moves := 0 } scores

/-- Length of the trailing run of scores with absolute value above 1000. -/
def resignStreak (scores : List ℤ) : ℕ :=
  ((scores.reverse).takeWhile (fun s => decide (1000 < s.natAbs))).length

/-- Length of the trailing run of (move number, score) entries at move 40
or later whose absolute score is at most 5. -/
def drawStreak (entries : List (ℕ × ℤ)) : ℕ :=
  ((entries.reverse).takeWhile
    (fun p => decide (40 ≤ p.1) && decide (p.2.natAbs ≤ 5))).length

/-- The reported scores paired with the move number the loop uses. -/
def scoredEntries (scores : List (Option ℤ)) : List (ℕ × ℤ) :=
  (scores.enum).filterMap (fun p => p.2.map (fun s => (p.1 / 2 + 1, s)))

/-- Spec-side resign streak at a configurable threshold, as claim C1 reads
the code: the count of consecutive trailing moves with |score| above t. -/
def resignStreakAt (t : ℤ) (scores : List ℤ) : ℕ :=
  ((scores.reverse).takeWhile (fun s => decide (t < |s|))).length

/-- AdjudicationConfig (types.rs lines 23-31). -/
structure AdjudicationConfig where
  resign_score : Option ℤ
  resign_move_count : Option ℕ
  draw_score : Option ℤ
  draw_move_number : Option ℕ
  draw_move_count : Option ℕ
  result_adjudication : Bool

/-- Resign adjudication as claim C1 states it, driven by the thresholds
supplied in the tournament's AdjudicationConfig. -/
def specResignTrigger (cfg : AdjudicationConfig) (scores : List ℤ) : Bool :=
  match cfg.resign_score, cfg.resign_move_count with
  | some rs, some rc => rc ≤ resignStreakAt rs scores
  | _, _ => false

lemma adjRunAux_append (ss : List (Option ℤ)) (o : Option ℤ) :
    ∀ (i : ℕ) (st : AdjState),
      adjRunAux i st (ss ++ [o]) =
        adjStep ((i + ss.length) / 2 + 1) o (adjRunAux i st ss) := by
  induction ss with
  | nil =>
    intro i st
    simp [adjRunAux]
  | cons s rest ih =>
    intro i st
    show adjRunAux (i + 1) (adjStep (i / 2 + 1) s st) (rest ++ [o]) = _
    rw [ih]
    have harith : i + 1 + rest.length = i + (s :: rest).length := by
      simp only [List.length_cons]
      omega
    rw [harith]
    rfl

lemma resignStreak_append (l : List ℤ) (s : ℤ) :
    resignStreak (l ++ [s]) =
      if 1000 < s.natAbs then resignStreak l + 1 else 0 := by
  simp only [resignStreak, List.reverse_append, List.reverse_singleton,
    List.singleton_append, List.takeWhile_cons]
  by_cases h : 1000 < s.natAbs <;> simp [h]

lemma drawStreak_append (l : List (ℕ × ℤ)) (e : ℕ × ℤ) :
    drawStreak (l ++ [e]) =
      if 40 ≤ e.1 ∧ e.2.natAbs ≤ 5 then drawStreak l + 1 else 0 := by
  simp only [drawStreak, List.reverse_append, List.reverse_singleton,
    List.singleton_append, List.takeWhile_cons]
  by_cases h1 : 40 ≤ e.1 <;> by_cases h2 : e.2.natAbs ≤ 5 <;> simp [h1, h2]

lemma scoredEntries_append (ss : List (Option ℤ)) (o : Option ℤ) :
    scoredEntries (ss ++ [o]) =
      scoredEntries ss ++
        (match o with
          | none => []
          | some s => [(ss.length / 2 + 1, s)]) := by
  simp only [scoredEntries, List.enum_append, List.filterMap_append]
  cases o <;> simp [List.enumFrom]

/-- C1 counterexample: with an AdjudicationConfig demanding
|score| > 10000 for 3 consecutive moves, five consecutive scores of 2000
make the game loop adjudicate a win (its thresholds 1000 cp / 5 moves are
hard-coded), while the configured condition of the claim never fires. -/
theorem claim_C1_counterexample :
    adjDecision true (some 2000)
        (adjRun [some 2000, some 2000, some 2000, some 2000, some 2000]) =
      some "1-0" ∧
    specResignTrigger
        { resign_score := some 10000, resign_move_count := some 3,
          draw_score := some 5, draw_move_number := some 40,
          draw_move_count := some 20, result_adjudication := false }
        [2000, 2000, 2000, 2000, 2000] = false := by
  constructor
  · rfl
  · rfl

/-- C1 (amended: the loop's thresholds are the hard-coded literals
1000 cp / 5 consecutive moves for resign and move 40 / 5 cp / 20
consecutive moves for draw; the tournament's AdjudicationConfig is not
consulted): after processing any score report sequence, the resign counter
equals the trailing run of reported scores exceeding 1000 cp, the draw
counter equals the trailing run of reported scores of at most 5 cp at move
40 or later, and the decision after a move adjudicates the decisive result
by the sign of the mover's score exactly when the resign counter reaches
5, a draw exactly when it does not and the draw counter reaches 20, and
nothing otherwise. -/
theorem claim_C1_adjudication (scores : List (Option ℤ)) :
    (adjRun scores).consec_resign_moves = resignStreak (scores.filterMap id) ∧
    (adjRun scores).consec_draw_moves = drawStreak (scoredEntries scores) ∧
    (∀ (turnWhite : Bool) (s : ℤ) (st : AdjState), 5 ≤ st.consec_resign_moves →
      adjDecision turnWhite (some s) st =
        some (if 0 < s then (if turnWhite then "1-0" else "0-1")
          else (if turnWhite then "0-1" else "1-0"))) ∧
    (∀ (turnWhite : Bool) (ms : Option ℤ) (st : AdjState),
      st.consec_resign_moves < 5 → 20 ≤ st.consec_draw_moves →
      adjDecision turnWhite ms st = some "1/2-1/2") ∧
    (∀ (turnWhite : Bool) (ms : Option ℤ) (st : AdjState),
      st.consec_resign_moves < 5 → st.consec_draw_moves < 20 →
      adjDecision turnWhite ms st = none) := by
  refine ⟨?_, ?_, ?_, ?_, ?_⟩
  · induction scores using List.reverseRecOn with
    | nil => rfl
    | append_singleton ss o ih =>
      rw [adjRun, adjRunAux_append]
      cases o with
      | none =>
        simpa [adjStep] using ih
      | some s =>
        rw [List.filterMap_append]
        simp only [List.filterMap_cons, List.filterMap_nil, id]
        rw [resignStreak_append]
        simp only [adjStep]
        rw [← adjRun, ih]
  · induction scores using List.reverseRecOn with
    | nil => rfl
    | append_singleton ss o ih =>
      rw [adjRun, adjRunAux_append, scoredEntries_append]
      cases o with
      | none =>
        simpa [adjStep] using ih
      | some s =>
        rw [drawStreak_append]
        simp only [adjStep, Nat.zero_add]
        rw [← adjRun, ih]
        by_cases h1 : 40 ≤ ss.length / 2 + 1 <;> by_cases h2 : s.natAbs ≤ 5 <;>
          simp [h1, h2]
  · intro turnWhite s st h
    simp [adjDecision, h]
  · intro turnWhite ms st h1 h2
    simp [adjDecision, Nat.not_le.mpr h1, h2]
  · intro turnWhite ms st h1 h2
    simp [adjDecision, Nat.not_le.mpr h1, Nat.not_le.mpr h2]

/-- Witness for C1 on a mixed score sequence (a missing report leaves the
counters alone, a small score resets the resign streak) together with the
three decision rules discharged at concrete counter states. -/
theorem claim_C1_witness :
    (adjRun [some 1500, none, some 2000, some 3, some (-1200)]).consec_resign_moves =
      resignStreak ([some 1500, none, some 2000, some 3, some (-1200)].filterMap id) ∧
    (adjRun [some 1500, none, some 2000, some 3, some (-1200)]).consec_draw_moves =
      drawStreak (scoredEntries [some 1500, none, some 2000, some 3, some (-1200)]) ∧
    adjDecision true (some 2000) ⟨5, 0⟩ = some "1-0" ∧
    adjDecision false (some (-2000)) ⟨5, 0⟩ = some "1-0" ∧
    adjDecision true none ⟨0, 20⟩ = some "1/2-1/2" ∧
    adjDecision true none ⟨0, 0⟩ = none := by
  have h := claim_C1_adjudication [some 1500, none, some 2000, some 3, some (-1200)]
  refine ⟨h.1, h.2.1, ?_, ?_, ?_, ?_⟩
  · have hd := h.2.2.1 true 2000 ⟨5, 0⟩ (by decide)
    simpa using hd
  · have hd := h.2.2.1 false (-2000) ⟨5, 0⟩ (by decide)
    simpa using hd
  · exact h.2.2.2.1 true none ⟨0, 20⟩ (by decide) (by decide)
  · exact h.2.2.2.2 true none ⟨0, 0⟩ (by decide) (by decide)

/-! ## stats.rs: calculate_standings (lines 174-280)

Every f64 point value in this function is an exact multiple of 0.5 (and
every Sonneborn-Berger addend a multiple of 0.25), so points are modelled
exactly as integers in half-point units (0.5 ↦ 1) and SB values in
quarter-point units; both encodings are order-preserving, so the sort
comparator is unchanged.  The score fraction p = points / games_played of
the source appears as ((points : ℚ) / 2) / games_played.  The HashMap
keyed by engine name becomes a list with insert-overwrite semantics, and
the stable sort_by of the source is modelled by insertion sort (stable
sorts with the same comparator produce the same output). -/

structure EngineConfig where
  id : Option String
  name : String

structure ScheduledGame where
  id : ℕ
  white_name : String
  black_name : String
  state : String
  result : Option String

structure StandingsEntry where
  rank : ℕ
  engine_name : String
  engine_id : Option String
  games_played : ℕ
  points : ℤ
  score_percent : ℚ
  wins : ℕ
  losses : ℕ
  draws : ℕ
  crashes : ℕ
  sb : ℤ
  elo : ℝ
  elo_diff : Option ℝ

/-- Fresh entry for an engine (stats.rs lines 180-194). -/
noncomputable def initEntry (eng : EngineConfig) : StandingsEntry :=
  { rank := 0, engine_name := eng.name, engine_id := eng.id, games_played := 0,
    points := 0, score_percent := 0, wins := 0, losses := 0, draws := 0,
    crashes := 0, sb := 0, elo := 0, elo_diff := none }

/-- HashMap::insert on the name key: overwrite an existing entry, else append. -/
noncomputable def insertEntry (l : List StandingsEntry) (e : StandingsEntry) :
    List StandingsEntry :=
  if l.any (fun x => x.engine_name == e.engine_name) then
    l.map (fun x => if x.engine_name == e.engine_name then e else x)
  else l ++ [e]

/-- Points for white and black from the result string (stats.rs 207-212),
in half-point units: 1.0 ↦ 2, 0.5 ↦ 1. -/
def resultPoints (result : String) : ℤ × ℤ :=
  if result = "1-0" ∨ result = "1-0 (forfeit)" then (2, 0)
  else if result = "0-1" ∨ result = "0-1 (forfeit)" then (0, 2)
  else if result = "1/2-1/2" ∨ result = "1/2-1/2 (forfeit)" then (1, 1)
  else (0, 0)

/-- Credit one game to one side's entry (stats.rs 214-227); the f64 tests
against 1.0 and 0.5 become tests against 2 and 1 half-points. -/
def creditEntry (pts : ℤ) (e : StandingsEntry) : StandingsEntry :=
  let e := { e with games_played := e.games_played + 1, points := e.points + pts }
  if pts = 2 then { e with wins := e.wins + 1 }
  else if pts = 1 then { e with draws := e.draws + 1 }
  else { e with losses := e.losses + 1 }

def updateEntries (l : List StandingsEntry) (name : String)
    (f : StandingsEntry → StandingsEntry) : List StandingsEntry :=
  l.map (fun e => if e.engine_name == name then f e else e)

/-- The head-to-head points map, player -> opponent -> half-points won. -/
abbrev SbMap : Type := List (String × List (String × ℤ))

def bumpInner (inner : List (String × ℤ)) (opponent : String) (pts : ℤ) :
    List (String × ℤ) :=
  if inner.any (fun q => q.1 == opponent) then
    inner.map (fun q => if q.1 == opponent then (q.1, q.2 + pts) else q)
  else inner ++ [(opponent, pts)]

/-- sb_map.entry(player).or_default().entry(opponent).or_insert(0) += pts
(stats.rs 230-231). -/
def bumpSb (m : SbMap) (player opponent : String) (pts : ℤ) : SbMap :=
  if m.any (fun p => p.1 == player) then
    m.map (fun p => if p.1 == player then (p.1, bumpInner p.2 opponent pts) else p)
  else m ++ [(player, bumpInner [] opponent pts)]

/-- Processing of one scheduled game (stats.rs 198-233). -/
noncomputable def processGame (st : List StandingsEntry × SbMap) (g : ScheduledGame) :
    List StandingsEntry × SbMap :=
  match g.result with
  | none => st
  | some result =>
    if st.1.any (fun e => e.engine_name == g.white_name) then
      if st.1.any (fun e => e.engine_name == g.black_name) then
        let pts := resultPoints result
        let entries := updateEntries st.1 g.white_name (creditEntry pts.1)
        let entries := updateEntries entries g.black_name (creditEntry pts.2)
        let sb := bumpSb st.2 g.white_name g.black_name pts.1
        let sb := bumpSb sb g.black_name g.white_name pts.2
        (entries, sb)
      else st
    else st

/-- One player's Sonneborn-Berger value (stats.rs 240-246): sum of
points-won-against times the opponent's final points (quarter-point
units), looked up in the post-pass snapshot. -/
noncomputable def sbVal (entries : List StandingsEntry)
    (opponents : List (String × ℤ)) : ℤ :=
  opponents.foldl
    (fun s q =>
      match entries.find? (fun e => e.engine_name == q.1) with
      | some e2 => s + q.2 * e2.points
      | none => s) 0

/-- One iteration of the SB loop: store the player's SB value. -/
noncomputable def calcSbStep (entries : List StandingsEntry)
    (acc : List StandingsEntry) (p : String × List (String × ℤ)) :
    List StandingsEntry :=
  acc.map (fun e =>
    if e.engine_name == p.1 then { e with sb := sbVal entries p.2 } else e)

/-- Sonneborn-Berger pass (stats.rs 238-250). -/
noncomputable def calcSb (entries : List StandingsEntry) (m : SbMap) :
    List StandingsEntry :=
  m.foldl (calcSbStep entries) entries

def cmpZ (u v : ℤ) : Ordering :=
  if u < v then .lt else if v < u then .gt else .eq

def cmpN (u v : ℕ) : Ordering :=
  if u < v then .lt else if v < u then .gt else .eq

/-- The sort_by comparator (stats.rs 256-260): points desc, then SB desc,
then wins desc. -/
def standingsCmp (a b : StandingsEntry) : Ordering :=
  ((cmpZ b.points a.points).then (cmpZ b.sb a.sb)).then (cmpN b.wins a.wins)

/-- Rank, score percentage and capped Elo for the i-th sorted entry
(stats.rs 262-277); the three-way choice of the elo field value becomes a
nested conditional. -/
noncomputable def finalizeEntry (i : ℕ) (e : StandingsEntry) : StandingsEntry :=
  if 0 < e.games_played then
    let p : ℚ := ((e.points : ℚ) / 2) / (e.games_played : ℚ)
    { e with
      rank := i + 1,
      score_percent := p * 100,
      elo :=
        (if p ≤ 1 / 1000 then (-1000 : ℝ)
          else if 999 / 1000 ≤ p then 1000
          else -400 * Real.logb 10 (1 / (p : ℝ) - 1)) }
  else { e with rank := i + 1 }

/-- calculate_standings (stats.rs 174-280). -/
noncomputable def calculate_standings (schedule : List ScheduledGame)
    (engines : List EngineConfig) : List StandingsEntry :=
  let entries0 := engines.foldl (fun acc eng => insertEntry acc (initEntry eng)) []
  let st := schedule.foldl processGame (entries0, ([] : SbMap))
  let entries2 := calcSb st.1 st.2
  let sorted := entries2.insertionSort (fun a b => standingsCmp a b ≠ Ordering.gt)
  (sorted.enum).map (fun p => finalizeEntry p.1 p.2)

lemma finalizeEntry_points (i : ℕ) (e : StandingsEntry) :
    (finalizeEntry i e).points = e.points := by
  simp only [finalizeEntry]
  split_ifs <;> rfl

lemma finalizeEntry_games (i : ℕ) (e : StandingsEntry) :
    (finalizeEntry i e).games_played = e.games_played := by
  simp only [finalizeEntry]
  split_ifs <;> rfl

lemma finalizeEntry_elo (i : ℕ) (e : StandingsEntry) (h : 0 < e.games_played) :
    (finalizeEntry i e).elo =
      if ((e.points : ℚ) / 2) / (e.games_played : ℚ) ≤ 1 / 1000 then (-1000 : ℝ)
      else if 999 / 1000 ≤ ((e.points : ℚ) / 2) / (e.games_played : ℚ) then 1000
      else -400 * Real.logb 10
        (1 / ((((e.points : ℚ) / 2) / (e.games_played : ℚ) : ℚ) : ℝ) - 1) := by
  simp only [finalizeEntry, if_pos h]

lemma standings_elo_spec (schedule : List ScheduledGame) (engines : List EngineConfig)
    (e : StandingsEntry) (he : e ∈ calculate_standings schedule engines)
    (hg : 0 < e.games_played) :
    (((e.points : ℚ) / 2) / (e.games_played : ℚ) ≤ 1 / 1000 → e.elo = -1000) ∧
    (999 / 1000 ≤ ((e.points : ℚ) / 2) / (e.games_played : ℚ) → e.elo = 1000) ∧
    (1 / 1000 < ((e.points : ℚ) / 2) / (e.games_played : ℚ) →
      ((e.points : ℚ) / 2) / (e.games_played : ℚ) < 999 / 1000 →
      e.elo = -400 * Real.logb 10
        (1 / ((((e.points : ℚ) / 2) / (e.games_played : ℚ) : ℚ) : ℝ) - 1)) := by
  simp only [calculate_standings, List.mem_map] at he
  obtain ⟨⟨i, e0⟩, hmem, rfl⟩ := he
  rw [finalizeEntry_games] at hg
  rw [finalizeEntry_points, finalizeEntry_games, finalizeEntry_elo i e0 hg]
  refine ⟨?_, ?_, ?_⟩
  · intro h1
    rw [if_pos h1]
  · intro h1
    have h0 : ¬ ((e0.points : ℚ) / 2) / (e0.games_played : ℚ) ≤ 1 / 1000 := by
      intro hc
      have : (999 : ℚ) / 1000 ≤ 1 / 1000 := le_trans h1 hc
      norm_num at this
    rw [if_neg h0, if_pos h1]
  · intro h1 h2
    rw [if_neg (not_le.mpr h1), if_neg (not_le.mpr h2)]

/-- C8 (amended: elo is the score-fraction formula only for
0.001 < p < 0.999, and is clamped to -1000 for p ≤ 0.001 and to +1000 for
p ≥ 0.999 — the caps extend strictly inside (0, 1), not only to the
boundary fractions): every entry of calculate_standings with games played
obeys these three branches, writing p for its score fraction. -/
theorem claim_C8_standings (schedule : List ScheduledGame) (engines : List EngineConfig)
    (e : StandingsEntry) (he : e ∈ calculate_standings schedule engines)
    (hg : 0 < e.games_played) :
    (((e.points : ℚ) / 2) / (e.games_played : ℚ) ≤ 1 / 1000 → e.elo = -1000) ∧
    (999 / 1000 ≤ ((e.points : ℚ) / 2) / (e.games_played : ℚ) → e.elo = 1000) ∧
    (1 / 1000 < ((e.points : ℚ) / 2) / (e.games_played : ℚ) →
      ((e.points : ℚ) / 2) / (e.games_played : ℚ) < 999 / 1000 →
      e.elo = -400 * Real.logb 10
        (1 / ((((e.points : ℚ) / 2) / (e.games_played : ℚ) : ℚ) : ℝ) - 1)) :=
  standings_elo_spec schedule engines e he hg

noncomputable def defaultEntry : StandingsEntry := initEntry { id := none, name := "" }

noncomputable def demoEngines : List EngineConfig :=
  [{ id := none, name := "A" }, { id := none, name := "B" }]

def demoGame : ScheduledGame :=
  { id := 1, white_name := "A", black_name := "B", state := "Finished",
    result := some "1-0" }

/-- Witness for C8 at a two-engine, one-game tournament; the first sorted
entry has one win in one game. -/
theorem claim_C8_witness :
    ((((((calculate_standings [demoGame] demoEngines).getD 0 defaultEntry).points : ℚ) / 2) /
        (((calculate_standings [demoGame] demoEngines).getD 0
          defaultEntry).games_played : ℚ) ≤ 1 / 1000) →
      ((calculate_standings [demoGame] demoEngines).getD 0 defaultEntry).elo = -1000) ∧
    (999 / 1000 ≤
        ((((calculate_standings [demoGame] demoEngines).getD 0 defaultEntry).points : ℚ) / 2) /
          (((calculate_standings [demoGame] demoEngines).getD 0
            defaultEntry).games_played : ℚ) →
      ((calculate_standings [demoGame] demoEngines).getD 0 defaultEntry).elo = 1000) ∧
    (1 / 1000 <
        ((((calculate_standings [demoGame] demoEngines).getD 0 defaultEntry).points : ℚ) / 2) /
          (((calculate_standings [demoGame] demoEngines).getD 0
            defaultEntry).games_played : ℚ) →
      ((((calculate_standings [demoGame] demoEngines).getD 0 defaultEntry).points : ℚ) / 2) /
          (((calculate_standings [demoGame] demoEngines).getD 0
            defaultEntry).games_played : ℚ) < 999 / 1000 →
      ((calculate_standings [demoGame] demoEngines).getD 0 defaultEntry).elo =
        -400 * Real.logb 10
          (1 / ((((((calculate_standings [demoGame] demoEngines).getD 0
              defaultEntry).points : ℚ) / 2) /
            (((calculate_standings [demoGame] demoEngines).getD 0
              defaultEntry).games_played : ℚ) : ℚ) : ℝ) - 1)) := by
  have h0 : 0 < (calculate_standings [demoGame] demoEngines).length := by decide
  have hE : (calculate_standings [demoGame] demoEngines).getD 0 defaultEntry =
      (calculate_standings [demoGame] demoEngines).get ⟨0, h0⟩ := by
    rw [List.getD_eq_getElem?_getD, List.getElem?_eq_getElem h0]
    rfl
  have hmem : (calculate_standings [demoGame] demoEngines).getD 0 defaultEntry ∈
      calculate_standings [demoGame] demoEngines := by
    rw [hE]
    exact List.get_mem _ _ _
  have hg : 0 < ((calculate_standings [demoGame] demoEngines).getD 0
      defaultEntry).games_played := by decide
  exact claim_C8_standings [demoGame] demoEngines _ hmem hg

def lossGameBA : ScheduledGame :=
  { id := 0, white_name := "B", black_name := "A", state := "Finished",
    result := some "1-0" }

def drawGameBA : ScheduledGame :=
  { id := 0, white_name := "B", black_name := "A", state := "Finished",
    result := some "1/2-1/2" }

/-- 500 games, engine A scoring half a point: p = 0.001 exactly. -/
def bigSchedule : List ScheduledGame := List.replicate 499 lossGameBA ++ [drawGameBA]

lemma logb_ten_999_ne : Real.logb 10 999 ≠ 5 / 2 := by
  intro hk
  have h1 : (10 : ℝ) ^ (Real.logb 10 999) = 999 :=
    Real.rpow_logb (by norm_num) (by norm_num) (by norm_num)
  rw [hk] at h1
  have h2 : (999 : ℝ) ^ (2 : ℕ) = (10 : ℝ) ^ (5 : ℕ) := by
    calc (999 : ℝ) ^ (2 : ℕ) = ((10 : ℝ) ^ ((5 : ℝ) / 2)) ^ (2 : ℕ) := by rw [h1]
    _ = (10 : ℝ) ^ (((5 : ℝ) / 2) * 2) := by
        rw [← Real.rpow_natCast ((10 : ℝ) ^ ((5 : ℝ) / 2)) 2,
          ← Real.rpow_mul (by norm_num)]
        norm_num
    _ = (10 : ℝ) ^ ((5 : ℕ) : ℝ) := by norm_num
    _ = (10 : ℝ) ^ (5 : ℕ) := Real.rpow_natCast 10 5
  norm_num at h2

/-- C8 counterexample: engine A has half a point in 500 games, so its score
fraction 0.001 lies strictly inside (0, 1), yet calculate_standings caps
its elo at -1000, and the claimed formula value -400·log10(999) differs
from -1000 — the clamp is not confined to the boundary fractions. -/
lemma creditEntry_name (pts : ℤ) (e : StandingsEntry) :
    (creditEntry pts e).engine_name = e.engine_name := by
  simp only [creditEntry]
  split_ifs <;> rfl

lemma creditEntry_points (pts : ℤ) (e : StandingsEntry) :
    (creditEntry pts e).points = e.points + pts := by
  simp only [creditEntry]
  split_ifs <;> rfl

lemma creditEntry_games (pts : ℤ) (e : StandingsEntry) :
    (creditEntry pts e).games_played = e.games_played + 1 := by
  simp only [creditEntry]
  split_ifs <;> rfl

lemma iter_credit_name (pts : ℤ) (k : ℕ) (e : StandingsEntry) :
    ((creditEntry pts)^[k] e).engine_name = e.engine_name := by
  induction k generalizing e with
  | zero => rfl
  | succ n ih => rw [Function.iterate_succ_apply, ih, creditEntry_name]

lemma iter_credit_points (pts : ℤ) (k : ℕ) (e : StandingsEntry) :
    ((creditEntry pts)^[k] e).points = e.points + k * pts := by
  induction k generalizing e with
  | zero => simp
  | succ n ih =>
    rw [Function.iterate_succ_apply, ih, creditEntry_points]
    push_cast
    ring

lemma iter_credit_games (pts : ℤ) (k : ℕ) (e : StandingsEntry) :
    ((creditEntry pts)^[k] e).games_played = e.games_played + k := by
  induction k generalizing e with
  | zero => rfl
  | succ n ih =>
    rw [Function.iterate_succ_apply, ih, creditEntry_games]
    omega

lemma processGame_loss (eA eB : StandingsEntry) (m : SbMap)
    (hA : eA.engine_name = "A") (hB : eB.engine_name = "B") :
    processGame ([eA, eB], m) lossGameBA =
      ([creditEntry 0 eA, creditEntry 2 eB],
        bumpSb (bumpSb m "B" "A" 2) "A" "B" 0) := by
  simp [processGame, lossGameBA, resultPoints, updateEntries, hA, hB, creditEntry_name]

lemma processGame_draw (eA eB : StandingsEntry) (m : SbMap)
    (hA : eA.engine_name = "A") (hB : eB.engine_name = "B") :
    processGame ([eA, eB], m) drawGameBA =
      ([creditEntry 1 eA, creditEntry 1 eB],
        bumpSb (bumpSb m "B" "A" 1) "A" "B" 1) := by
  simp [processGame, drawGameBA, resultPoints, updateEntries, hA, hB, creditEntry_name]

lemma fold_loss (k : ℕ) : ∀ (eA eB : StandingsEntry) (m : SbMap),
    eA.engine_name = "A" → eB.engine_name = "B" →
    ∃ m2 : SbMap,
      (List.replicate k lossGameBA).foldl processGame ([eA, eB], m) =
        ([(creditEntry 0)^[k] eA, (creditEntry 2)^[k] eB], m2) := by
  induction k with
  | zero =>
    intro eA eB m hA hB
    exact ⟨m, rfl⟩
  | succ n ih =>
    intro eA eB m hA hB
    rw [List.replicate_succ, List.foldl_cons, processGame_loss eA eB m hA hB]
    obtain ⟨m2, hm2⟩ := ih (creditEntry 0 eA) (creditEntry 2 eB)
      (bumpSb (bumpSb m "B" "A" 2) "A" "B" 0)
      (by rw [creditEntry_name, hA]) (by rw [creditEntry_name, hB])
    exact ⟨m2, by
      rw [hm2, Function.iterate_succ_apply, Function.iterate_succ_apply]⟩

lemma calcSb_foldl_map (entries : List StandingsEntry) (m : SbMap) :
    ∀ acc : List StandingsEntry, ∃ G : StandingsEntry → StandingsEntry,
      m.foldl (calcSbStep entries) acc = acc.map G ∧
      ∀ e, (G e).points = e.points ∧ (G e).games_played = e.games_played := by
  induction m with
  | nil =>
    intro acc
    exact ⟨id, by simp, fun e => ⟨rfl, rfl⟩⟩
  | cons p m2 ih =>
    intro acc
    obtain ⟨G, hG, hpres⟩ := ih (calcSbStep entries acc p)
    refine ⟨fun e =>
      G (if e.engine_name == p.1 then { e with sb := sbVal entries p.2 } else e),
      ?_, ?_⟩
    · rw [List.foldl_cons, hG]
      simp only [calcSbStep, List.map_map]
      rfl
    · intro e
      constructor
      · rw [(hpres _).1]
        by_cases h : e.engine_name == p.1 <;> simp [h]
      · rw [(hpres _).2]
        by_cases h : e.engine_name == p.1 <;> simp [h]

lemma mem_finalize_output (sorted : List StandingsEntry) (x : StandingsEntry)
    (hx : x ∈ sorted) :
    ∃ i, finalizeEntry i x ∈
      (sorted.enum).map (fun p => finalizeEntry p.1 p.2) := by
  obtain ⟨i, hi, hget⟩ := List.mem_iff_getElem.mp hx
  refine ⟨i, ?_⟩
  have hlen : i < sorted.enum.length := by
    rw [List.enum_length]
    exact hi
  have henum : (i, x) ∈ sorted.enum := by
    have hval : sorted.enum[i] = (i, sorted[i]) := List.getElem_enum sorted i hlen
    rw [← hget]
    rw [← hval]
    exact List.getElem_mem hlen
  exact List.mem_map_of_mem _ henum

/-- C8 counterexample: engine A has half a point in 500 games, so its score
fraction 0.001 lies strictly inside (0, 1), yet calculate_standings caps
its elo at -1000, and the claimed formula value -400·log10(999) differs
from -1000 — the clamp is not confined to the boundary fractions. -/
theorem claim_C8_counterexample :
    ∃ e ∈ calculate_standings bigSchedule demoEngines,
      0 < ((e.points : ℚ) / 2) / (e.games_played : ℚ) ∧
      ((e.points : ℚ) / 2) / (e.games_played : ℚ) < 1 ∧
      e.elo = -1000 ∧
      -400 * Real.logb 10
          (1 / (((e.points : ℚ) / 2) / (e.games_played : ℚ) : ℝ) - 1) ≠ -1000 := by
  obtain ⟨m2, hfold⟩ := fold_loss 499 (initEntry { id := none, name := "A" })
    (initEntry { id := none, name := "B" }) [] rfl rfl
  have hdraw := processGame_draw
    ((creditEntry 0)^[499] (initEntry { id := none, name := "A" }))
    ((creditEntry 2)^[499] (initEntry { id := none, name := "B" })) m2
    (by rw [iter_credit_name]; rfl) (by rw [iter_credit_name]; rfl)
  set eA2 := creditEntry 1 ((creditEntry 0)^[499] (initEntry { id := none, name := "A" }))
    with heA2
  set eB2 := creditEntry 1 ((creditEntry 2)^[499] (initEntry { id := none, name := "B" }))
    with heB2
  obtain ⟨G, hG, hpres⟩ := calcSb_foldl_map [eA2, eB2]
    (bumpSb (bumpSb m2 "B" "A" 1) "A" "B" 1) [eA2, eB2]
  have hcs : calculate_standings bigSchedule demoEngines =
      (((calcSb [eA2, eB2] (bumpSb (bumpSb m2 "B" "A" 1) "A" "B" 1)).insertionSort
          (fun a b => standingsCmp a b ≠ Ordering.gt)).enum).map
        (fun p => finalizeEntry p.1 p.2) := by
    simp only [calculate_standings, bigSchedule]
    rw [List.foldl_append, List.foldl_cons, List.foldl_nil]
    have h0 : demoEngines.foldl (fun acc eng => insertEntry acc (initEntry eng)) [] =
        [initEntry { id := none, name := "A" }, initEntry { id := none, name := "B" }] := rfl
    rw [h0, hfold, hdraw]
  have hpts : eA2.points = 1 := by
    rw [heA2, creditEntry_points, iter_credit_points]
    rfl
  have hgames : eA2.games_played = 500 := by
    rw [heA2, creditEntry_games, iter_credit_games]
    rfl
  have hmemCalc : G eA2 ∈ calcSb [eA2, eB2] (bumpSb (bumpSb m2 "B" "A" 1) "A" "B" 1) := by
    rw [calcSb, hG]
    exact List.mem_map_of_mem G (by simp)
  have hmemSort : G eA2 ∈
      (calcSb [eA2, eB2] (bumpSb (bumpSb m2 "B" "A" 1) "A" "B" 1)).insertionSort
        (fun a b => standingsCmp a b ≠ Ordering.gt) :=
    (List.perm_insertionSort _ _).mem_iff.mpr hmemCalc
  obtain ⟨i, hmemOut⟩ := mem_finalize_output _ _ hmemSort
  rw [← hcs] at hmemOut
  have hfp : (finalizeEntry i (G eA2)).points = 1 := by
    rw [finalizeEntry_points, (hpres eA2).1, hpts]
  have hfg : (finalizeEntry i (G eA2)).games_played = 500 := by
    rw [finalizeEntry_games, (hpres eA2).2, hgames]
  refine ⟨finalizeEntry i (G eA2), hmemOut, ?_, ?_, ?_, ?_⟩
  · rw [hfp, hfg]
    norm_num
  · rw [hfp, hfg]
    norm_num
  · have hg0 : 0 < (G eA2).games_played := by
      rw [(hpres eA2).2, hgames]
      norm_num
    rw [finalizeEntry_elo i (G eA2) hg0, (hpres eA2).1, (hpres eA2).2, hpts, hgames]
    rw [if_pos (by norm_num)]
  · rw [hfp, hfg]
    intro hcon
    push_cast at hcon
    norm_num at hcon
    have hlogb : Real.logb 10 999 = 5 / 2 := by linarith
    exact logb_ten_999_ne hlogb

/-! ## arbiter.rs: the schedule queue and update_remaining_rounds
(lines 51-77, 79-101, 136-143, 170-187, 199-321, 327-334, 387-392, 503-510)

The Arbiter's schedule state is modelled as a small transition system: a
dispatch pops the front of the schedule queue (run_tournament line 509),
and update_remaining_rounds trims or extends each pairing's pending tail
(lines 199-321).  The two ghost fields dispatched and sinceUpdate record
the popped items (in total, and since the most recent
update_remaining_rounds call); they take no part in the modelled code.
Engine-name lookups config.engines[i].name become getD with a default
(the source would panic out of bounds). -/

structure ScheduleItem where
  id : ℕ
  idx_a : ℕ
  idx_b : ℕ
  game_idx : ℕ
  white_name : String
  black_name : String
deriving DecidableEq, Repr

structure PairingState where
  idx_a : ℕ
  idx_b : ℕ
  next_game_idx : ℕ
deriving DecidableEq, Repr

inductive TournamentMode where
  | Match
  | Gauntlet
  | RoundRobin
deriving DecidableEq, Repr

/-- The slice of TournamentConfig the schedule machinery reads. -/
structure ArbConfig where
  engines : List String
  swap_sides : Bool
deriving DecidableEq, Repr

/-- Arbiter::generate_pairings (arbiter.rs lines 80-101). -/
def generate_pairings (mode : TournamentMode) (n : ℕ) : List (ℕ × ℕ) :=
  match mode with
  | .Match => if 2 ≤ n then [(0, 1)] else []
  | .Gauntlet => if 2 ≤ n then (List.range (n - 1)).map (fun i => (0, i + 1)) else []
  | .RoundRobin => (List.range n).flatMap (fun i => (List.range (n - (i + 1))).map
      (fun d => (i, i + 1 + d)))

/-- Arbiter::make_schedule_item (arbiter.rs lines 170-187). -/
def make_schedule_item (cfg : ArbConfig) (idx_a idx_b game_idx game_id : ℕ) :
    ScheduleItem :=
  let wb := if cfg.swap_sides && game_idx % 2 != 0 then (idx_b, idx_a) else (idx_a, idx_b)
  { id := game_id, idx_a := idx_a, idx_b := idx_b, game_idx := game_idx,
    white_name := cfg.engines.getD wb.1 "",
    black_name := cfg.engines.getD wb.2 "" }

def itemKey (it : ScheduleItem) : ℕ × ℕ := (it.idx_a, it.idx_b)

def stateKey (st : PairingState) : ℕ × ℕ := (st.idx_a, st.idx_b)

/-- Number of queue items of one pairing (the pending_counts map of
arbiter.rs lines 209-212, read at one key). -/
def countKey (key : ℕ × ℕ) (l : List ScheduleItem) : ℕ :=
  l.countP (fun it => decide (itemKey it = key))

/-- The remove_needed map (arbiter.rs lines 214-221) as a function:
positive only on pairing keys whose pending count exceeds the new round
count (Nat subtraction covers the absent-key case). -/
def removeNeeded (states : List PairingState) (queue : List ScheduleItem) (k : ℕ) :
    (ℕ × ℕ) → ℕ :=
  fun key =>
    if states.any (fun st => decide (stateKey st = key)) then countKey key queue - k
    else 0

/-- The `remove_needed.is_empty()` test (arbiter.rs line 223). -/
def removalNotNeeded (states : List PairingState) (queue : List ScheduleItem)
    (k : ℕ) : Bool :=
  states.all (fun st => countKey (stateKey st) queue ≤ k)

/-- The reverse sweep collecting ids to drop (arbiter.rs lines 224-233):
walk the queue from the back, decrementing each pairing's still-needed
count. -/
def markRemovals : List ScheduleItem → ((ℕ × ℕ) → ℕ) → List ℕ
  | [], _ => []
  | it :: rest, needed =>
    if 0 < needed (itemKey it) then
      it.id :: markRemovals rest
        (fun k2 => if k2 = itemKey it then needed (itemKey it) - 1 else needed k2)
    else markRemovals rest needed

/-- Retain the queue items whose id was not marked (arbiter.rs 282-285). -/
def applyRemoval (queue : List ScheduleItem) (needed : (ℕ × ℕ) → ℕ) :
    List ScheduleItem :=
  let ids := markRemovals queue.reverse needed
  queue.filter (fun it => !(ids.contains it.id))

/-- The inner add loop for one pairing (arbiter.rs lines 298-306): build
count items, threading next_game_idx and next_game_id. -/
def buildItems (cfg : ArbConfig) (idx_a idx_b : ℕ) :
    ℕ → ℕ → ℕ → List ScheduleItem × ℕ × ℕ
  | 0, gidx, gid => ([], gidx, gid)
  | n + 1, gidx, gid =>
    let item := make_schedule_item cfg idx_a idx_b gidx (gid + 1)
    let rest := buildItems cfg idx_a idx_b n (gidx + 1) (gid + 1)
    (item :: rest.1, rest.2)

/-- The add loop over pairing states (arbiter.rs lines 293-308), with the
pending counts snapshot taken after removal (lines 288-291). -/
def addPhase (cfg : ArbConfig) (k : ℕ) (snap : List ScheduleItem) :
    List PairingState → List ScheduleItem → ℕ →
      List PairingState × List ScheduleItem × ℕ
  | [], queue, gid => ([], queue, gid)
  | st :: rest, queue, gid =>
    let current := countKey (stateKey st) snap
    if current < k then
      let built := buildItems cfg st.idx_a st.idx_b (k - current) st.next_game_idx gid
      let st2 := { st with next_game_idx := built.2.1 }
      let r := addPhase cfg k snap rest (queue ++ built.1) built.2.2
      (st2 :: r.1, r.2)
    else
      let r := addPhase cfg k snap rest queue gid
      (st :: r.1, r.2)

/-- The schedule-relevant state of the Arbiter, plus two ghost fields
recording dispatched items. -/
structure ArbState where
  queue : List ScheduleItem
  pairing_states : List PairingState
  next_game_id : ℕ
  remaining_rounds : ℕ
  dispatched : List ScheduleItem
  sinceUpdate : List ScheduleItem

/-- Arbiter::update_remaining_rounds (arbiter.rs lines 199-321). -/
def update_remaining_rounds (cfg : ArbConfig) (k : ℕ) (s : ArbState) : ArbState :=
  let queue1 :=
    if removalNotNeeded s.pairing_states s.queue k then s.queue
    else applyRemoval s.queue (removeNeeded s.pairing_states s.queue k)
  let r := addPhase cfg k queue1 s.pairing_states queue1 s.next_game_id
  { queue := r.2.1, pairing_states := r.1, next_game_id := r.2.2,
    remaining_rounds := k, dispatched := s.dispatched, sinceUpdate := [] }

/-- One dispatch: pop the front of the schedule queue (arbiter.rs 509). -/
def dispatch (s : ArbState) : ArbState :=
  match s.queue with
  | [] => s
  | it :: rest =>
    { s with
      queue := rest,
      dispatched := s.dispatched ++ [it],
      sinceUpdate := s.sinceUpdate ++ [it] }

/-- The state right after Start: run_tournament clears the queue, resets
every pairing's next_game_idx and the game-id counter, then calls
update_remaining_rounds with the stored round count (arbiter.rs 327-334,
387-392). -/
def startState (cfg : ArbConfig) (mode : TournamentMode) (k : ℕ) : ArbState :=
  let pairings := generate_pairings mode cfg.engines.length
  let states := pairings.map (fun p =>
    { idx_a := p.1, idx_b := p.2, next_game_idx := 0 })
  update_remaining_rounds cfg k
    { queue := [], pairing_states := states, next_game_id := 0,
      remaining_rounds := k, dispatched := [], sinceUpdate := [] }

/-- The interleaving of the claim: game dispatches and
update_remaining_rounds calls, in any order. -/
inductive ArbStep (cfg : ArbConfig) : ArbState → ArbState → Prop where
  | dispatch (s : ArbState) : ArbStep cfg s (dispatch s)
  | update (s : ArbState) (k : ℕ) : ArbStep cfg s (update_remaining_rounds cfg k s)

inductive Reachable (cfg : ArbConfig) (mode : TournamentMode) : ArbState → Prop where
  | start (k : ℕ) : Reachable cfg mode (startState cfg mode k)
  | step {s t : ArbState} : Reachable cfg mode s → ArbStep cfg s t →
      Reachable cfg mode t

/-- C2 counterexample: in a two-engine Match with remaining rounds 2,
dispatching one game and then calling update_remaining_rounds(2) again is
a reachable interleaving after Start; it leaves 2 Pending items for the
pairing (0, 1) while 1 item was already dispatched, so pending +
dispatched = 3 differs from the most recent update value 2. -/
theorem claim_C2_counterexample :
    Reachable { engines := ["A", "B"], swap_sides := false } TournamentMode.Match
      (update_remaining_rounds { engines := ["A", "B"], swap_sides := false } 2
        (dispatch (startState { engines := ["A", "B"], swap_sides := false }
          TournamentMode.Match 2))) ∧
    ¬ (countKey (0, 1)
          (update_remaining_rounds { engines := ["A", "B"], swap_sides := false } 2
            (dispatch (startState { engines := ["A", "B"], swap_sides := false }
              TournamentMode.Match 2))).queue +
        countKey (0, 1)
          (update_remaining_rounds { engines := ["A", "B"], swap_sides := false } 2
            (dispatch (startState { engines := ["A", "B"], swap_sides := false }
              TournamentMode.Match 2))).dispatched =
        (update_remaining_rounds { engines := ["A", "B"], swap_sides := false } 2
            (dispatch (startState { engines := ["A", "B"], swap_sides := false }
              TournamentMode.Match 2))).remaining_rounds) := by
  constructor
  · exact Reachable.step
      (Reachable.step (Reachable.start 2)
        (ArbStep.dispatch _))
      (ArbStep.update _ 2)
  · decide

lemma countKey_nil (key : ℕ × ℕ) : countKey key [] = 0 := rfl

lemma countKey_cons (key : ℕ × ℕ) (it : ScheduleItem) (l : List ScheduleItem) :
    countKey key (it :: l) = (if itemKey it = key then 1 else 0) + countKey key l := by
  unfold countKey
  rw [List.countP_cons]
  by_cases h : itemKey it = key <;> simp [h, Nat.add_comm]

lemma countKey_append (key : ℕ × ℕ) (l1 l2 : List ScheduleItem) :
    countKey key (l1 ++ l2) = countKey key l1 + countKey key l2 := by
  simp [countKey, List.countP_append]

lemma countKey_reverse (key : ℕ × ℕ) (l : List ScheduleItem) :
    countKey key l.reverse = countKey key l :=
  (List.reverse_perm l).countP_eq _

lemma make_schedule_item_key (cfg : ArbConfig) (a b gidx gid : ℕ) :
    itemKey (make_schedule_item cfg a b gidx gid) = (a, b) := rfl

lemma make_schedule_item_id (cfg : ArbConfig) (a b gidx gid : ℕ) :
    (make_schedule_item cfg a b gidx gid).id = gid := rfl

lemma buildItems_key (cfg : ArbConfig) (a b : ℕ) :
    ∀ (n gidx gid : ℕ), ∀ it ∈ (buildItems cfg a b n gidx gid).1, itemKey it = (a, b) := by
  intro n
  induction n with
  | zero => intro gidx gid it hit; simp [buildItems] at hit
  | succ m ih =>
    intro gidx gid it hit
    simp only [buildItems, List.mem_cons] at hit
    rcases hit with rfl | hit
    · rfl
    · exact ih (gidx + 1) (gid + 1) it hit

lemma buildItems_count_own (cfg : ArbConfig) (a b : ℕ) :
    ∀ (n gidx gid : ℕ), countKey (a, b) (buildItems cfg a b n gidx gid).1 = n := by
  intro n
  induction n with
  | zero => intro gidx gid; rfl
  | succ m ih =>
    intro gidx gid
    simp only [buildItems]
    rw [countKey_cons, make_schedule_item_key, ih]
    simp only [eq_self_iff_true, if_true]
    omega

lemma buildItems_count_other (cfg : ArbConfig) (a b : ℕ) (key : ℕ × ℕ)
    (hk : key ≠ (a, b)) :
    ∀ (n gidx gid : ℕ), countKey key (buildItems cfg a b n gidx gid).1 = 0 := by
  intro n
  induction n with
  | zero => intro gidx gid; rfl
  | succ m ih =>
    intro gidx gid
    simp only [buildItems]
    rw [countKey_cons, make_schedule_item_key, ih,
      if_neg (fun h => hk h.symm)]

lemma buildItems_gid (cfg : ArbConfig) (a b : ℕ) :
    ∀ (n gidx gid : ℕ), (buildItems cfg a b n gidx gid).2.2 = gid + n := by
  intro n
  induction n with
  | zero => intro gidx gid; rfl
  | succ m ih =>
    intro gidx gid
    simp only [buildItems]
    rw [ih]
    omega

lemma buildItems_id_bound (cfg : ArbConfig) (a b : ℕ) :
    ∀ (n gidx gid : ℕ), ∀ it ∈ (buildItems cfg a b n gidx gid).1,
      gid < it.id ∧ it.id ≤ gid + n := by
  intro n
  induction n with
  | zero => intro gidx gid it hit; simp [buildItems] at hit
  | succ m ih =>
    intro gidx gid it hit
    simp only [buildItems, List.mem_cons] at hit
    rcases hit with rfl | hit
    · rw [make_schedule_item_id]
      omega
    · have := ih (gidx + 1) (gid + 1) it hit
      omega

lemma buildItems_ids_nodup (cfg : ArbConfig) (a b : ℕ) :
    ∀ (n gidx gid : ℕ),
      ((buildItems cfg a b n gidx gid).1.map (fun it => it.id)).Nodup := by
  intro n
  induction n with
  | zero => intro gidx gid; simp [buildItems]
  | succ m ih =>
    intro gidx gid
    simp only [buildItems, List.map_cons, List.nodup_cons]
    refine ⟨?_, ih (gidx + 1) (gid + 1)⟩
    intro hmem
    rw [make_schedule_item_id] at hmem
    obtain ⟨it, hit, hid⟩ := List.mem_map.mp hmem
    have := buildItems_id_bound cfg a b m (gidx + 1) (gid + 1) it hit
    omega

lemma markRemovals_subset :
    ∀ (rl : List ScheduleItem) (needed : (ℕ × ℕ) → ℕ) (x : ℕ),
      x ∈ markRemovals rl needed → x ∈ rl.map (fun it => it.id) := by
  intro rl
  induction rl with
  | nil => intro needed x hx; simp [markRemovals] at hx
  | cons it rest ih =>
    intro needed x hx
    simp only [markRemovals] at hx
    by_cases h : 0 < needed (itemKey it)
    · rw [if_pos h] at hx
      rcases List.mem_cons.mp hx with rfl | hx
      · simp
      · simp only [List.map_cons, List.mem_cons]
        exact Or.inr (ih _ x hx)
    · rw [if_neg h] at hx
      simp only [List.map_cons, List.mem_cons]
      exact Or.inr (ih _ x hx)

lemma mark_filter_count :
    ∀ (rl : List ScheduleItem) (needed : (ℕ × ℕ) → ℕ),
      (rl.map (fun it => it.id)).Nodup → ∀ key,
      countKey key (rl.filter (fun it => !((markRemovals rl needed).contains it.id))) =
        countKey key rl - min (needed key) (countKey key rl) := by
  intro rl
  induction rl with
  | nil => intro needed _ key; simp [markRemovals, countKey_nil]
  | cons it rest ih =>
    intro needed hnd key
    simp only [List.map_cons, List.nodup_cons] at hnd
    obtain ⟨hidout, hndr⟩ := hnd
    by_cases hpos : 0 < needed (itemKey it)
    · have hmarks : markRemovals (it :: rest) needed =
          it.id :: markRemovals rest
            (fun k2 => if k2 = itemKey it then needed (itemKey it) - 1 else needed k2) := by
        simp [markRemovals, hpos]
      rw [hmarks]
      have hhead : (!((it.id :: markRemovals rest
          (fun k2 => if k2 = itemKey it then needed (itemKey it) - 1 else needed k2)).contains
            it.id)) = false := by
        simp
      rw [List.filter_cons, hhead]
      simp only [Bool.false_eq_true, if_false]
      have hcongr : rest.filter
          (fun x => !((it.id :: markRemovals rest
            (fun k2 => if k2 = itemKey it then needed (itemKey it) - 1 else needed k2)).contains
              x.id)) =
          rest.filter (fun x => !((markRemovals rest
            (fun k2 => if k2 = itemKey it then needed (itemKey it) - 1 else needed k2)).contains
              x.id)) := by
        apply List.filter_congr
        intro x hx
        have hne : x.id ≠ it.id := by
          intro hc
          exact hidout (hc ▸ List.mem_map_of_mem (fun it => it.id) hx)
        simp [List.contains_cons, hne]
      rw [hcongr, ih _ hndr key, countKey_cons]
      rcases eq_or_ne (itemKey it) key with hkey | hkey
      · rw [← hkey]
        simp only [eq_self_iff_true, if_true]
        omega
      · rw [if_neg hkey, if_neg (fun h => hkey h.symm)]
        omega
    · have hmarks : markRemovals (it :: rest) needed = markRemovals rest needed := by
        simp [markRemovals, hpos]
      rw [hmarks]
      have hnotin : it.id ∉ markRemovals rest needed := fun hc =>
        hidout (markRemovals_subset rest needed it.id hc)
      have hhead : (!((markRemovals rest needed).contains it.id)) = true := by
        simp [hnotin]
      rw [List.filter_cons, hhead]
      simp only [if_true]
      rw [countKey_cons, ih needed hndr key, countKey_cons]
      by_cases hkey : itemKey it = key
      · have h0 : needed key = 0 := by
          rw [← hkey]
          omega
        simp only [if_pos hkey, h0]
        omega
      · simp only [if_neg hkey]
        omega

lemma applyRemoval_count (queue : List ScheduleItem) (needed : (ℕ × ℕ) → ℕ)
    (hnd : (queue.map (fun it => it.id)).Nodup) (key : ℕ × ℕ) :
    countKey key (applyRemoval queue needed) =
      countKey key queue - min (needed key) (countKey key queue) := by
  unfold applyRemoval
  have hndr : (queue.reverse.map (fun it => it.id)).Nodup := by
    rw [List.map_reverse]
    exact List.nodup_reverse.mpr hnd
  have hperm : List.Perm
      (queue.filter (fun it => !((markRemovals queue.reverse needed).contains it.id)))
      (queue.reverse.filter
        (fun it => !((markRemovals queue.reverse needed).contains it.id))) :=
    ((List.reverse_perm queue).symm).filter _
  have h1 : countKey key
      (queue.filter (fun it => !((markRemovals queue.reverse needed).contains it.id))) =
      countKey key (queue.reverse.filter
        (fun it => !((markRemovals queue.reverse needed).contains it.id))) :=
    hperm.countP_eq _
  rw [h1, mark_filter_count queue.reverse needed hndr key, countKey_reverse]

lemma queue1_count (states : List PairingState) (queue : List ScheduleItem) (k : ℕ)
    (hnd : (queue.map (fun it => it.id)).Nodup) (st : PairingState) (hst : st ∈ states) :
    countKey (stateKey st)
      (if removalNotNeeded states queue k then queue
        else applyRemoval queue (removeNeeded states queue k)) =
      min (countKey (stateKey st) queue) k := by
  by_cases hrm : removalNotNeeded states queue k = true
  · rw [if_pos hrm]
    have hle : countKey (stateKey st) queue ≤ k := by
      simp only [removalNotNeeded, List.all_eq_true, decide_eq_true_eq] at hrm
      exact hrm st hst
    rw [min_eq_left hle]
  · rw [if_neg hrm, applyRemoval_count queue _ hnd]
    have hany : states.any (fun s2 => decide (stateKey s2 = stateKey st)) = true := by
      rw [List.any_eq_true]
      exact ⟨st, hst, by simp⟩
    simp only [removeNeeded, hany, if_true]
    omega

lemma stateKey_set_gidx (st : PairingState) (x : ℕ) :
    stateKey { st with next_game_idx := x } = stateKey st := rfl

lemma addPhase_keys (cfg : ArbConfig) (k : ℕ) (snap : List ScheduleItem) :
    ∀ (states : List PairingState) (q : List ScheduleItem) (g : ℕ),
      ((addPhase cfg k snap states q g).1.map stateKey) = states.map stateKey := by
  intro states
  induction states with
  | nil => intro q g; rfl
  | cons st rest ih =>
    intro q g
    simp only [addPhase]
    split
    · simp only [List.map_cons, ih, stateKey_set_gidx]
    · simp only [List.map_cons, ih]

lemma addPhase_count_notmem (cfg : ArbConfig) (k : ℕ) (snap : List ScheduleItem) :
    ∀ (states : List PairingState) (q : List ScheduleItem) (g : ℕ) (key : ℕ × ℕ),
      key ∉ states.map stateKey →
      countKey key (addPhase cfg k snap states q g).2.1 = countKey key q := by
  intro states
  induction states with
  | nil => intro q g key _; rfl
  | cons st rest ih =>
    intro q g key h
    simp only [List.map_cons, List.mem_cons, not_or] at h
    obtain ⟨hne, hnotin⟩ := h
    simp only [addPhase]
    split
    · rw [ih _ _ _ hnotin, countKey_append,
        buildItems_count_other cfg st.idx_a st.idx_b key hne]
      omega
    · exact ih _ _ _ hnotin

lemma addPhase_count_mem (cfg : ArbConfig) (k : ℕ) (snap : List ScheduleItem) :
    ∀ (states : List PairingState) (q : List ScheduleItem) (g : ℕ) (st : PairingState),
      st ∈ states → ((states.map stateKey).Nodup) →
      countKey (stateKey st) (addPhase cfg k snap states q g).2.1 =
        countKey (stateKey st) q + (k - countKey (stateKey st) snap) := by
  intro states
  induction states with
  | nil => intro q g st h; exact absurd h (List.not_mem_nil st)
  | cons hd rest ih =>
    intro q g st hmem hnd
    simp only [List.map_cons, List.nodup_cons] at hnd
    obtain ⟨hhdout, hndr⟩ := hnd
    rcases List.mem_cons.mp hmem with rfl | hmem2
    · simp only [addPhase]
      split
      · rename_i hlt
        rw [addPhase_count_notmem cfg k snap rest _ _ _ hhdout, countKey_append]
        have hown : countKey (stateKey st) (buildItems cfg st.idx_a st.idx_b
            (k - countKey (stateKey st) snap) st.next_game_idx g).1 =
            k - countKey (stateKey st) snap :=
          buildItems_count_own cfg st.idx_a st.idx_b _ st.next_game_idx g
        rw [hown]
      · rename_i hge
        rw [addPhase_count_notmem cfg k snap rest _ _ _ hhdout]
        omega
    · have hne : stateKey st ≠ stateKey hd := by
        intro hc
        exact hhdout (hc ▸ List.mem_map_of_mem stateKey hmem2)
      simp only [addPhase]
      split
      · rw [ih _ _ st hmem2 hndr, countKey_append,
          buildItems_count_other cfg hd.idx_a hd.idx_b (stateKey st) hne]
        omega
      · exact ih _ _ st hmem2 hndr

lemma addPhase_ids (cfg : ArbConfig) (k : ℕ) (snap : List ScheduleItem) :
    ∀ (states : List PairingState) (q : List ScheduleItem) (g : ℕ),
      (q.map (fun it => it.id)).Nodup → (∀ it ∈ q, it.id ≤ g) →
      ((addPhase cfg k snap states q g).2.1.map (fun it => it.id)).Nodup ∧
      (∀ it ∈ (addPhase cfg k snap states q g).2.1,
        it.id ≤ (addPhase cfg k snap states q g).2.2) ∧
      g ≤ (addPhase cfg k snap states q g).2.2 := by
  intro states
  induction states with
  | nil => intro q g h1 h2; exact ⟨h1, h2, le_refl g⟩
  | cons hd rest ih =>
    intro q g h1 h2
    simp only [addPhase]
    split
    · rename_i hlt
      have hgid := buildItems_gid cfg hd.idx_a hd.idx_b
        (k - countKey (stateKey hd) snap) hd.next_game_idx g
      have hbnd := buildItems_id_bound cfg hd.idx_a hd.idx_b
        (k - countKey (stateKey hd) snap) hd.next_game_idx g
      have hbnodup := buildItems_ids_nodup cfg hd.idx_a hd.idx_b
        (k - countKey (stateKey hd) snap) hd.next_game_idx g
      have h1' : ((q ++ (buildItems cfg hd.idx_a hd.idx_b
          (k - countKey (stateKey hd) snap) hd.next_game_idx g).1).map
            (fun it => it.id)).Nodup := by
        rw [List.map_append]
        rw [List.nodup_append]
        refine ⟨h1, hbnodup, ?_⟩
        intro x hx hx2
        obtain ⟨it1, hit1, rfl⟩ := List.mem_map.mp hx
        obtain ⟨it2, hit2, hid2⟩ := List.mem_map.mp hx2
        have hb := hbnd it2 hit2
        have ha := h2 it1 hit1
        omega
      have h2' : ∀ it ∈ q ++ (buildItems cfg hd.idx_a hd.idx_b
          (k - countKey (stateKey hd) snap) hd.next_game_idx g).1,
          it.id ≤ (buildItems cfg hd.idx_a hd.idx_b
            (k - countKey (stateKey hd) snap) hd.next_game_idx g).2.2 := by
        intro it hit
        rcases List.mem_append.mp hit with hq | hb
        · have := h2 it hq
          omega
        · have := hbnd it hb
          omega
      have hrec := ih _ _ h1' h2'
      refine ⟨hrec.1, hrec.2.1, le_trans ?_ hrec.2.2⟩
      omega
    · exact ih _ _ h1 h2

lemma generate_pairings_nodup (mode : TournamentMode) (n : ℕ) :
    (generate_pairings mode n).Nodup := by
  cases mode with
  | Match =>
    show (if 2 ≤ n then [((0 : ℕ), (1 : ℕ))] else []).Nodup
    split
    · exact List.nodup_singleton _
    · exact List.nodup_nil
  | Gauntlet =>
    show (if 2 ≤ n then (List.range (n - 1)).map (fun i => (0, i + 1)) else []).Nodup
    split
    · refine List.Nodup.map ?_ (List.nodup_range (n - 1))
      intro a b h
      simpa using h
    · exact List.nodup_nil
  | RoundRobin =>
    show ((List.range n).flatMap (fun i => (List.range (n - (i + 1))).map
      (fun d => (i, i + 1 + d)))).Nodup
    rw [List.nodup_flatMap]
    constructor
    · intro i _
      refine List.Nodup.map ?_ (List.nodup_range (n - (i + 1)))
      intro a b h
      simpa using h
    · refine (List.nodup_range n).imp ?_
      intro i j hij x hx1 hx2
      obtain ⟨d1, _, rfl⟩ := List.mem_map.mp hx1
      obtain ⟨d2, _, he⟩ := List.mem_map.mp hx2
      exact hij (congrArg Prod.fst he).symm

/-- The schedule invariant maintained by the arbiter loop: queue ids are
fresh and distinct, pairing keys are distinct, and every pairing's pending
count plus its dispatches since the last update equals the last update's
round count. -/
def GoodSt (s : ArbState) : Prop :=
  (s.queue.map (fun it => it.id)).Nodup ∧
  (∀ it ∈ s.queue, it.id ≤ s.next_game_id) ∧
  ((s.pairing_states.map stateKey).Nodup) ∧
  (∀ st ∈ s.pairing_states,
    countKey (stateKey st) s.queue + countKey (stateKey st) s.sinceUpdate =
      s.remaining_rounds)

lemma update_pending (cfg : ArbConfig) (k : ℕ) (s : ArbState)
    (h1 : (s.queue.map (fun it => it.id)).Nodup)
    (h3 : (s.pairing_states.map stateKey).Nodup) :
    ∀ st2 ∈ (update_remaining_rounds cfg k s).pairing_states,
      countKey (stateKey st2) (update_remaining_rounds cfg k s).queue = k := by
  intro st2 hst2
  have hkeys : ((update_remaining_rounds cfg k s).pairing_states.map stateKey) =
      s.pairing_states.map stateKey :=
    addPhase_keys cfg k _ s.pairing_states _ s.next_game_id
  have hmem : stateKey st2 ∈ s.pairing_states.map stateKey := by
    rw [← hkeys]
    exact List.mem_map_of_mem stateKey hst2
  obtain ⟨st1, hst1, hkey⟩ := List.mem_map.mp hmem
  have hq1nd : ((if removalNotNeeded s.pairing_states s.queue k then s.queue
      else applyRemoval s.queue (removeNeeded s.pairing_states s.queue k)).map
        (fun it => it.id)).Nodup := by
    by_cases h : removalNotNeeded s.pairing_states s.queue k = true
    · rw [if_pos h]; exact h1
    · rw [if_neg h]
      unfold applyRemoval
      exact List.Nodup.sublist ((List.filter_sublist s.queue).map (fun it => it.id)) h1
  have hc1 := queue1_count s.pairing_states s.queue k h1 st1 hst1
  have hmemcount := addPhase_count_mem cfg k
    (if removalNotNeeded s.pairing_states s.queue k then s.queue
      else applyRemoval s.queue (removeNeeded s.pairing_states s.queue k))
    s.pairing_states
    (if removalNotNeeded s.pairing_states s.queue k then s.queue
      else applyRemoval s.queue (removeNeeded s.pairing_states s.queue k))
    s.next_game_id st1 hst1 h3
  have hgoal : countKey (stateKey st1) (update_remaining_rounds cfg k s).queue = k := by
    rw [show (update_remaining_rounds cfg k s).queue =
      (addPhase cfg k
        (if removalNotNeeded s.pairing_states s.queue k then s.queue
          else applyRemoval s.queue (removeNeeded s.pairing_states s.queue k))
        s.pairing_states
        (if removalNotNeeded s.pairing_states s.queue k then s.queue
          else applyRemoval s.queue (removeNeeded s.pairing_states s.queue k))
        s.next_game_id).2.1 from rfl]
    rw [hmemcount, hc1]
    omega
  rw [← hkey]
  exact hgoal

lemma update_good (cfg : ArbConfig) (k : ℕ) (s : ArbState)
    (h1 : (s.queue.map (fun it => it.id)).Nodup)
    (h2 : ∀ it ∈ s.queue, it.id ≤ s.next_game_id)
    (h3 : (s.pairing_states.map stateKey).Nodup) :
    GoodSt (update_remaining_rounds cfg k s) := by
  have hq1nd : ((if removalNotNeeded s.pairing_states s.queue k then s.queue
      else applyRemoval s.queue (removeNeeded s.pairing_states s.queue k)).map
        (fun it => it.id)).Nodup := by
    by_cases h : removalNotNeeded s.pairing_states s.queue k = true
    · rw [if_pos h]; exact h1
    · rw [if_neg h]
      unfold applyRemoval
      exact List.Nodup.sublist ((List.filter_sublist s.queue).map (fun it => it.id)) h1
  have hq1b : ∀ it ∈ (if removalNotNeeded s.pairing_states s.queue k then s.queue
      else applyRemoval s.queue (removeNeeded s.pairing_states s.queue k)),
      it.id ≤ s.next_game_id := by
    by_cases h : removalNotNeeded s.pairing_states s.queue k = true
    · rw [if_pos h]; exact h2
    · rw [if_neg h]
      intro it hit
      exact h2 it (List.mem_of_mem_filter hit)
  have hids := addPhase_ids cfg k
    (if removalNotNeeded s.pairing_states s.queue k then s.queue
      else applyRemoval s.queue (removeNeeded s.pairing_states s.queue k))
    s.pairing_states
    (if removalNotNeeded s.pairing_states s.queue k then s.queue
      else applyRemoval s.queue (removeNeeded s.pairing_states s.queue k))
    s.next_game_id hq1nd hq1b
  refine ⟨hids.1, hids.2.1, ?_, ?_⟩
  · have hkeys : ((update_remaining_rounds cfg k s).pairing_states.map stateKey) =
        s.pairing_states.map stateKey :=
      addPhase_keys cfg k _ s.pairing_states _ s.next_game_id
    rw [hkeys]
    exact h3
  · intro st2 hst2
    have hp := update_pending cfg k s h1 h3 st2 hst2
    have hsu : (update_remaining_rounds cfg k s).sinceUpdate = [] := rfl
    rw [hsu, countKey_nil, hp]
    rfl

lemma dispatch_good (s : ArbState) (h : GoodSt s) : GoodSt (dispatch s) := by
  obtain ⟨h1, h2, h3, h4⟩ := h
  cases hq : s.queue with
  | nil =>
    simp only [dispatch, hq]
    exact ⟨h1, h2, h3, h4⟩
  | cons it rest =>
    simp only [dispatch, hq]
    refine ⟨?_, ?_, h3, ?_⟩
    · rw [hq, List.map_cons] at h1
      exact (List.nodup_cons.mp h1).2
    · intro it2 hit2
      exact h2 it2 (by rw [hq]; exact List.mem_cons_of_mem _ hit2)
    · intro st hst
      have h4' := h4 st hst
      rw [hq, countKey_cons] at h4'
      show countKey (stateKey st) rest +
        countKey (stateKey st) (s.sinceUpdate ++ [it]) = s.remaining_rounds
      rw [countKey_append, countKey_cons, countKey_nil]
      omega

lemma start_good (cfg : ArbConfig) (mode : TournamentMode) (k : ℕ) :
    GoodSt (startState cfg mode k) := by
  refine update_good cfg k _ (by simp) (by simp) ?_
  show (((generate_pairings mode cfg.engines.length).map (fun p =>
      ({ idx_a := p.1, idx_b := p.2, next_game_idx := 0 } : PairingState))).map
        stateKey).Nodup
  rw [List.map_map]
  have hid : (stateKey ∘ fun p : ℕ × ℕ =>
      ({ idx_a := p.1, idx_b := p.2, next_game_idx := 0 } : PairingState)) =
      fun p : ℕ × ℕ => p := by
    funext p
    rfl
  rw [hid, List.map_id']
  exact generate_pairings_nodup mode cfg.engines.length

lemma reachable_good (cfg : ArbConfig) (mode : TournamentMode) (s : ArbState)
    (h : Reachable cfg mode s) : GoodSt s := by
  induction h with
  | start k => exact start_good cfg mode k
  | step hr hs ih =>
    cases hs with
    | dispatch => exact dispatch_good _ ih
    | update k => exact update_good cfg k _ ih.1 ih.2.1 ih.2.2.1

/-- C2 (amended): in every Arbiter state reachable after Start by any
interleaving of dispatches and update_remaining_rounds calls, each
pairing's pending-queue count plus its count of games dispatched since the
most recent update equals the most recent update's round count; and
immediately after any update_remaining_rounds(k) call each pairing's
pending count is exactly k.  The original claim's stronger form, with all
dispatches since Start counted, is refuted by claim_C2_counterexample. -/
theorem claim_C2_schedule_invariant (cfg : ArbConfig) (mode : TournamentMode)
    (s : ArbState) (h : Reachable cfg mode s) :
    (∀ st ∈ s.pairing_states,
      countKey (stateKey st) s.queue + countKey (stateKey st) s.sinceUpdate =
        s.remaining_rounds) ∧
    (∀ k : ℕ, ∀ st ∈ (update_remaining_rounds cfg k s).pairing_states,
      countKey (stateKey st) (update_remaining_rounds cfg k s).queue = k) := by
  have hg := reachable_good cfg mode s h
  exact ⟨hg.2.2.2, fun k => update_pending cfg k s hg.1 hg.2.2.1⟩

/-- Witness: the invariant instantiated at a two-engine Match started with
round count 2. -/
theorem claim_C2_witness :
    (∀ st ∈ (startState { engines := ["A", "B"], swap_sides := false }
        TournamentMode.Match 2).pairing_states,
      countKey (stateKey st)
          (startState { engines := ["A", "B"], swap_sides := false }
            TournamentMode.Match 2).queue +
        countKey (stateKey st)
          (startState { engines := ["A", "B"], swap_sides := false }
            TournamentMode.Match 2).sinceUpdate =
        (startState { engines := ["A", "B"], swap_sides := false }
          TournamentMode.Match 2).remaining_rounds) ∧
    (∀ k : ℕ, ∀ st ∈ (update_remaining_rounds
        { engines := ["A", "B"], swap_sides := false } k
        (startState { engines := ["A", "B"], swap_sides := false }
          TournamentMode.Match 2)).pairing_states,
      countKey (stateKey st) (update_remaining_rounds
        { engines := ["A", "B"], swap_sides := false } k
        (startState { engines := ["A", "B"], swap_sides := false }
          TournamentMode.Match 2)).queue = k) :=
  claim_C2_schedule_invariant { engines := ["A", "B"], swap_sides := false }
    TournamentMode.Match _ (Reachable.start 2)

end ChessGui
